import Mathlib

/-!
Verification of linkdapi-go-sdk: the request executor and the parameter encoder.

A shallow embedding of `linkdapi/client.go`, `linkdapi/config.go` and the endpoint
methods of `linkdapi/*.go`.

* Go `map[string]string` values are association lists with unique keys (`Params`).
* Go `int` and `time.Duration` are `Int`s holding 64-bit values; arithmetic that can leave
  the 64-bit range is wrapped explicitly with `wrap64`.
* The network, the clock and the cancellation context are an environment: for each loop
  iteration the environment says what the iteration observes (`Attempt`), and the run
  records what the code does (`Event`).
-/

set_option autoImplicit false

namespace Linkdapi

/-! ## Machine integers -/

/-- Two's complement wrap of an integer into the signed 64-bit range. -/
def wrap64 (x : Int) : Int :=
  (x + 2 ^ 63) % 2 ^ 64 - 2 ^ 63

/-- Largest value of a Go `int` / `time.Duration` (an `int64`). -/
def maxInt64 : Int := 2 ^ 63 - 1

/-- Smallest value of a Go `int` / `time.Duration` (an `int64`). -/
def minInt64 : Int := -(2 ^ 63)

/-! ## Parameter sets: Go `map[string]string` -/

/-- A Go `map[string]string`: an association list in which every key occurs once. -/
structure Params where
  entries : List (String × String)
deriving DecidableEq, Repr

namespace Params

/-- The map made by `make(map[string]string)`. -/
def empty : Params := ⟨[]⟩

/-- Assignment to one key of an entry list: `m[key] = value`. -/
def setEntries : List (String × String) → String → String → List (String × String)
  | [], key, value => [(key, value)]
  | (k, v) :: rest, key, value =>
    if k = key then (key, value) :: rest else (k, v) :: setEntries rest key value

/-- Go `m[key] = value`. -/
def set (m : Params) (key value : String) : Params :=
  ⟨setEntries m.entries key value⟩

/-- Lookup in an entry list. -/
def getEntries : List (String × String) → String → Option String
  | [], _ => none
  | (k, v) :: rest, key => if k = key then some v else getEntries rest key

/-- Go `v, ok := m[key]`: `none` when the key has no entry. -/
def get? (m : Params) (key : String) : Option String :=
  getEntries m.entries key

/-- Go `len(m)`. -/
def len (m : Params) : Nat := m.entries.length

/-- The keys of the map. -/
def keys (m : Params) : List String := m.entries.map Prod.fst

end Params

/-! ## Helper functions for building parameter maps (`client.go`) -/

/-- Go `strings.Join(elems, sep)`: the first element, then for every further element the
separator followed by the element; the empty string for no elements. -/
def stringsJoin : List String → String → String
  | [], _ => ""
  | [a], _ => a
  | a :: rest, sep => rest.foldl (fun b s => b ++ sep ++ s) a

/-- Source `stringParam`: adds a string parameter to the params map if the value is not
empty. -/
def stringParam (params : Params) (key value : String) : Params :=
  if value ≠ "" then params.set key value else params

/-- Source `intParam`: adds an integer parameter, printed with `%d`. -/
def intParam (params : Params) (key : String) (value : Int) : Params :=
  params.set key (toString value)

/-- Source `boolParam`: adds a boolean parameter if the pointer is not nil. -/
def boolParam (params : Params) (key : String) (value : Option Bool) : Params :=
  match value with
  | some b => if b then params.set key "true" else params.set key "false"
  | none => params

/-- Source `sliceParam`: adds a slice parameter as comma-separated values. -/
def sliceParam (params : Params) (key : String) (values : List String) : Params :=
  if values.length > 0 then params.set key (stringsJoin values ",") else params

/-! ## Strings and URL encoding (Go standard library) -/

/-- Go `strings.TrimLeft(s, "/")`: drops every leading `/`. -/
def trimLeftSlash (s : String) : String :=
  String.mk (s.data.dropWhile (fun ch => ch = '/'))

/-- Go `strings.TrimRight(s, "/")`: drops every trailing `/`. -/
def trimRightSlash (s : String) : String :=
  String.mk (s.data.reverse.dropWhile (fun ch => ch = '/')).reverse

/-- Upper-case hexadecimal digit of a value below sixteen. -/
def hexDigit (n : Nat) : Char :=
  "0123456789ABCDEF".data.getD n '0'

/-- Go `url.shouldEscape(c, encodeQueryComponent)` negated: the bytes that
`url.QueryEscape` copies unchanged (letters, digits, `-`, `_`, `.`, `~`). -/
def queryUnreserved (b : UInt8) : Bool :=
  let n := b.toNat
  (97 ≤ n && n ≤ 122) || (65 ≤ n && n ≤ 90) || (48 ≤ n && n ≤ 57) ||
    n = 45 || n = 95 || n = 46 || n = 126

/-- Go `url.QueryEscape` on one byte: unreserved bytes unchanged, a space as `+`, every
other byte as `%XX`. -/
def queryEscapeByte (b : UInt8) : List Char :=
  if queryUnreserved b then [Char.ofNat b.toNat]
  else if b.toNat = 32 then ['+']
  else ['%', hexDigit (b.toNat / 16), hexDigit (b.toNat % 16)]

/-- The bytes of a Go string: the UTF-8 encoding of its characters. -/
def goBytes (s : String) : List UInt8 :=
  s.data.flatMap String.utf8EncodeChar

/-- Go `url.QueryEscape`, byte by byte over the UTF-8 encoding of the string. -/
def queryEscape (s : String) : String :=
  String.mk ((goBytes s).flatMap queryEscapeByte)

/-- Lexicographic order on byte sequences, Go `a <= b` on strings. -/
def bytesLe : List UInt8 → List UInt8 → Bool
  | [], _ => true
  | _ :: _, [] => false
  | x :: xs, y :: ys => x.toNat < y.toNat || (x.toNat = y.toNat && bytesLe xs ys)

/-- Go `url.Values.Encode` for values holding one string per key: the keys are sorted,
then each entry is written to the buffer as `key=value` with both sides escaped, after a
`&` when the buffer is not empty. -/
def valuesEncode (params : Params) : String :=
  let sorted := params.entries.insertionSort
    (fun a b => bytesLe (goBytes a.1) (goBytes b.1) = true)
  sorted.foldl
    (fun buf kv =>
      (if buf.length > 0 then buf ++ "&" else buf) ++ queryEscape kv.1 ++ "=" ++
        queryEscape kv.2)
    ""

/-! ## The client (`client.go`) -/

/-- Source `Client`, without the pooled transport and the context: those are part of the
environment of a run. -/
structure Client where
  apiKey : String
  baseURL : String
  maxRetries : Int
  retryDelay : Int
  timeout : Int
deriving DecidableEq, Repr

/-- Source `Client.getHeaders`: the default headers for API requests. -/
def Client.getHeaders (c : Client) : Params :=
  ⟨[("X-linkdapi-apikey", c.apiKey),
    ("Accept", "application/json"),
    ("Content-Type", "application/json"),
    ("User-Agent", "LinkdAPI-Go-Client/1.0")]⟩

/-- Go `textproto.validHeaderFieldByte`: the token characters of RFC 7230. -/
def validHeaderFieldChar (ch : Char) : Bool :=
  ch.isAlphanum || "!#$%&*+-.^_|~".data.contains ch || ch.toNat = 39 || ch.toNat = 96

/-- The capitalisation pass of Go `textproto.CanonicalMIMEHeaderKey`: a letter is upper
case at the start and after `-`, lower case elsewhere. -/
def canonicalChars : Bool → List Char → List Char
  | _, [] => []
  | upper, ch :: rest =>
    let ch1 := if upper then ch.toUpper else ch.toLower
    ch1 :: canonicalChars (ch1 = '-') rest

/-- Go `textproto.CanonicalMIMEHeaderKey`: keys with a byte that is not a token character
are returned unchanged, the others are capitalised. -/
def canonicalMIMEHeaderKey (s : String) : String :=
  if s.data.all validHeaderFieldChar then String.mk (canonicalChars true s.data) else s

/-- An `*http.Request` as far as `sendRequest` fills it in. -/
structure Request where
  method : String
  url : String
  header : Params
deriving DecidableEq, Repr

/-- The request URL computed at the top of source `sendRequest`. -/
def Client.requestURL (c : Client) (endpoint : String) (params : Params) : String :=
  let requestURL := c.baseURL ++ "/" ++ trimLeftSlash endpoint
  if params.len > 0 then requestURL ++ "?" ++ valuesEncode params else requestURL

/-- The request of one attempt: `http.NewRequestWithContext` followed by
`req.Header.Set(key, value)` for every default header. -/
def Client.newRequest (c : Client) (method requestURL : String) : Request :=
  ⟨method, requestURL,
    c.getHeaders.entries.foldl (fun h kv => h.set (canonicalMIMEHeaderKey kv.1) kv.2)
      Params.empty⟩

/-! ## Results and errors -/

/-- A decoded JSON value, Go `any` as produced by `encoding/json`. -/
inductive JsonValue where
  | null
  | bool (b : Bool)
  | number (digits : String)
  | str (s : String)
  | array (items : List JsonValue)
  | object (fields : List (String × JsonValue))

/-- Go `map[string]any`: the decoded top-level JSON object. -/
abbrev Result := List (String × JsonValue)

/-- The error values `sendRequest` and the endpoint methods return. -/
inductive GoError where
  /-- An error value made by the standard library and returned as it is, such as
  `ctx.Err()` or the last transport error. -/
  | plain (msg : String)
  /-- Go `fmt.Errorf("failed to create request: %w", err)`. -/
  | createRequest (cause : String)
  /-- Go `fmt.Errorf("request failed after %d attempts: %w", c.maxRetries+1, err)`. -/
  | requestFailed (attempts : Int) (cause : String)
  /-- Go `fmt.Errorf("failed to read response body: %w", err)`. -/
  | readBody (cause : String)
  /-- Go `fmt.Errorf("API request failed with status %d: %s", resp.StatusCode, string(body))`. -/
  | apiStatus (statusCode : Int) (body : String)
  /-- Go `fmt.Errorf("failed to parse JSON response: %w", err)`. -/
  | parseJSON (cause : String)
  /-- Go `fmt.Errorf(msg)` of an endpoint method that rejects its arguments. -/
  | validation (msg : String)
deriving DecidableEq, Repr

/-- The text of an error value, Go `err.Error()`. -/
def GoError.Error : GoError → String
  | .plain msg => msg
  | .createRequest cause => "failed to create request: " ++ cause
  | .requestFailed attempts cause =>
    "request failed after " ++ toString attempts ++ " attempts: " ++ cause
  | .readBody cause => "failed to read response body: " ++ cause
  | .apiStatus statusCode body =>
    "API request failed with status " ++ toString statusCode ++ ": " ++ body
  | .parseJSON cause => "failed to parse JSON response: " ++ cause
  | .validation msg => msg

/-! ## The environment of a run -/

/-- What one iteration of the retry loop observes, in the order the source asks for it:
the context, request construction, the transport, the body and the status code. -/
inductive Attempt where
  /-- The channel `ctx.Done()` is closed at the check; `ctx.Err()` is `err`. -/
  | ctxDone (err : String)
  /-- Go `http.NewRequestWithContext` returns the error `err`. -/
  | newRequestFails (err : String)
  /-- Go `c.httpClient.Do(req)` returns the error `err`. -/
  | doFails (err : String)
  /-- The response arrives, and `io.ReadAll(resp.Body)` returns the error `err`. -/
  | readFails (statusCode : Int) (err : String)
  /-- The response arrives with this status code and this body. -/
  | response (statusCode : Int) (body : String)
deriving DecidableEq, Repr

/-- Go `json.Unmarshal(body, &result)` for a `map[string]any` target: an error, or the
value left in `result` (`none` is the nil map). -/
abbrev Unmarshal := String → Except String (Option Result)

/-- What a run does to the outside world, in order. -/
inductive Event where
  /-- A call `c.httpClient.Do(req)`. -/
  | dispatch (req : Request)
  /-- A call `time.Sleep(d)`. -/
  | sleep (d : Int)
deriving DecidableEq, Repr

/-- The pair `sendRequest` returns, with the events of the run. -/
structure Outcome where
  result : Option Result
  err : Option GoError
  trace : List Event

/-- The number of HTTP dispatches in a trace. -/
def dispatches : List Event → Nat
  | [] => 0
  | .dispatch _ :: rest => dispatches rest + 1
  | .sleep _ :: rest => dispatches rest

/-- The durations slept in a trace, in order. -/
def sleeps : List Event → List Int
  | [] => []
  | .dispatch _ :: rest => sleeps rest
  | .sleep d :: rest => d :: sleeps rest

/-- The argument of `time.Sleep` after the failed attempt with index `attempt`:
`c.retryDelay * time.Duration(attempt+1)` in 64-bit arithmetic. -/
def Client.backoff (c : Client) (attempt : Int) : Int :=
  wrap64 (c.retryDelay * wrap64 (attempt + 1))

/-- The retry loop of source `sendRequest`, from the loop condition on. The state is the
loop counter `attempt`, the variable `lastErr` and the events so far. The first argument
bounds the number of iterations still allowed; `none` means the bound was too small. -/
def Client.attemptLoop (c : Client) (req : Request) (unmarshal : Unmarshal)
    (env : Nat → Attempt) : Nat → Int → Option GoError → List Event → Option Outcome
  | 0, _, _, _ => none
  | fuel + 1, attempt, lastErr, trace =>
    if attempt ≤ c.maxRetries then
      match env attempt.toNat with
      | .ctxDone err => some ⟨none, some (.plain err), trace⟩
      | .newRequestFails err => some ⟨none, some (.createRequest err), trace⟩
      | .doFails err =>
        if attempt < c.maxRetries then
          c.attemptLoop req unmarshal env fuel (attempt + 1) (some (.plain err))
            (trace ++ [.dispatch req, .sleep (c.backoff attempt)])
        else
          some ⟨none, some (.requestFailed (wrap64 (c.maxRetries + 1)) err),
            trace ++ [.dispatch req]⟩
      | .readFails _ err =>
        if attempt < c.maxRetries then
          c.attemptLoop req unmarshal env fuel (attempt + 1) (some (.plain err))
            (trace ++ [.dispatch req, .sleep (c.backoff attempt)])
        else
          some ⟨none, some (.readBody err), trace ++ [.dispatch req]⟩
      | .response statusCode body =>
        if statusCode < 200 ∨ statusCode ≥ 300 then
          if attempt < c.maxRetries then
            c.attemptLoop req unmarshal env fuel (attempt + 1)
              (some (.apiStatus statusCode body))
              (trace ++ [.dispatch req, .sleep (c.backoff attempt)])
          else
            some ⟨none, some (.apiStatus statusCode body), trace ++ [.dispatch req]⟩
        else
          match unmarshal body with
          | .error err => some ⟨none, some (.parseJSON err), trace ++ [.dispatch req]⟩
          | .ok result => some ⟨result, none, trace ++ [.dispatch req]⟩
    else
      some ⟨none, lastErr, trace⟩

/-- The request every attempt of `sendRequest(method, endpoint, params)` builds. -/
def Client.buildRequest (c : Client) (method endpoint : String) (params : Params) :
    Request :=
  c.newRequest method (c.requestURL endpoint params)

/-- Source `Client.sendRequest`: builds the request URL, then runs the retry loop from
attempt 0 with `lastErr` nil. The loop condition is evaluated for the counter values 0 to
`maxRetries + 1`, which bounds the iterations. -/
def Client.sendRequest (c : Client) (method endpoint : String) (params : Params)
    (unmarshal : Unmarshal) (env : Nat → Attempt) : Option Outcome :=
  c.attemptLoop (c.buildRequest method endpoint params) unmarshal env
    ((c.maxRetries + 1).toNat + 1) 0 none []

/-! ## Endpoint methods -/

/-- What an endpoint method does: it either returns a local error without calling
`sendRequest`, or it returns `c.sendRequest(method, endpoint, params)` unchanged. -/
inductive Call where
  | localError (err : GoError)
  | request (method endpoint : String) (params : Params)
deriving DecidableEq, Repr

/-- The parameter set an endpoint method hands to `sendRequest`, if it calls it. -/
def Call.params? : Call → Option Params
  | .localError _ => none
  | .request _ _ params => some params

/-- Running an endpoint method on a client. -/
def Call.run (c : Client) (unmarshal : Unmarshal) (env : Nat → Attempt) :
    Call → Option Outcome
  | .localError err => some ⟨none, some err, []⟩
  | .request method endpoint params => c.sendRequest method endpoint params unmarshal env

/-- Source `JobSearchParams` (`params.go`). -/
structure JobSearchParams where
  Keyword : String
  Location : String
  GeoID : String
  CompanyIDs : List String
  JobTypes : List String
  Experience : List String
  Regions : List String
  TimePosted : String
  Salary : String
  WorkArrangement : List String
  Start : Int
deriving DecidableEq, Repr

/-- Source `JobSearchV2Params` (`params.go`). -/
structure JobSearchV2Params where
  Keyword : String
  Start : Int
  Count : Int
  SortBy : String
  DatePosted : String
  Experience : List String
  JobTypes : List String
  WorkplaceTypes : List String
  Salary : String
  Companies : List String
  Industries : List String
  Locations : List String
  Functions : List String
  Titles : List String
  Benefits : List String
  Commitments : List String
  EasyApply : Option Bool
  VerifiedJob : Option Bool
  Under10Applicants : Option Bool
  FairChance : Option Bool
deriving DecidableEq, Repr

/-! ### `companies.go` -/

/-- Source `Client.CompanyNameLookup`. -/
def CompanyNameLookup (query : String) : Call :=
  .request "GET" "api/v1/companies/name-lookup" ⟨[("query", query)]⟩

/-- Source `Client.GetCompanyInfo`. -/
def GetCompanyInfo (companyID name : String) : Call :=
  if companyID = "" ∧ name = "" then
    .localError (.validation "either companyID or name must be provided")
  else
    let params := Params.empty
    let params := stringParam params "id" companyID
    let params := stringParam params "name" name
    .request "GET" "api/v1/companies/company/info" params

/-- Source `Client.GetSimilarCompanies`. -/
def GetSimilarCompanies (companyID : String) : Call :=
  .request "GET" "api/v1/companies/company/similar" ⟨[("id", companyID)]⟩

/-- Source `Client.GetCompanyEmployeesData`. -/
def GetCompanyEmployeesData (companyID : String) : Call :=
  .request "GET" "api/v1/companies/company/employees-data" ⟨[("id", companyID)]⟩

/-- Source `Client.GetCompanyJobs`. -/
def GetCompanyJobs (companyIDs : List String) (start : Int) : Call :=
  let params := Params.empty
  let params := sliceParam params "companyIDs" companyIDs
  let params := intParam params "start" start
  .request "GET" "api/v1/companies/jobs" params

/-- Source `Client.GetCompanyAffiliatedPages`. -/
def GetCompanyAffiliatedPages (companyID : String) : Call :=
  .request "GET" "api/v1/companies/company/affiliated-pages" ⟨[("id", companyID)]⟩

/-- Source `Client.GetCompanyPosts`. -/
def GetCompanyPosts (companyID : String) (start : Int) : Call :=
  let params : Params := ⟨[("id", companyID)]⟩
  let params := intParam params "start" start
  .request "GET" "api/v1/companies/company/posts" params

/-- Source `Client.GetCompanyID`. -/
def GetCompanyID (universalName : String) : Call :=
  .request "GET" "api/v1/companies/company/universal-name-to-id"
    ⟨[("universalName", universalName)]⟩

/-- Source `Client.GetCompanyDetailsV2`. -/
def GetCompanyDetailsV2 (companyID : String) : Call :=
  .request "GET" "api/v1/companies/company/info-v2" ⟨[("id", companyID)]⟩

/-! ### `profile.go` -/

/-- Source `Client.GetProfileOverview`. -/
def GetProfileOverview (username : String) : Call :=
  .request "GET" "api/v1/profile/overview" ⟨[("username", username)]⟩

/-- Source `Client.GetProfileDetails`. -/
def GetProfileDetails (urn : String) : Call :=
  .request "GET" "api/v1/profile/details" ⟨[("urn", urn)]⟩

/-- Source `Client.GetContactInfo`. -/
def GetContactInfo (username : String) : Call :=
  .request "GET" "api/v1/profile/contact-info" ⟨[("username", username)]⟩

/-- Source `Client.GetFullExperience`. -/
def GetFullExperience (urn : String) : Call :=
  .request "GET" "api/v1/profile/full-experience" ⟨[("urn", urn)]⟩

/-- Source `Client.GetCertifications`. -/
def GetCertifications (urn : String) : Call :=
  .request "GET" "api/v1/profile/certifications" ⟨[("urn", urn)]⟩

/-- Source `Client.GetEducation`. -/
def GetEducation (urn : String) : Call :=
  .request "GET" "api/v1/profile/education" ⟨[("urn", urn)]⟩

/-- Source `Client.GetSkills`. -/
def GetSkills (urn : String) : Call :=
  .request "GET" "api/v1/profile/skills" ⟨[("urn", urn)]⟩

/-- Source `Client.GetSocialMatrix`. -/
def GetSocialMatrix (username : String) : Call :=
  .request "GET" "api/v1/profile/social-matrix" ⟨[("username", username)]⟩

/-- Source `Client.GetRecommendations`. -/
def GetRecommendations (urn : String) : Call :=
  .request "GET" "api/v1/profile/recommendations" ⟨[("urn", urn)]⟩

/-- Source `Client.GetSimilarProfiles`. -/
def GetSimilarProfiles (urn : String) : Call :=
  .request "GET" "api/v1/profile/similar" ⟨[("urn", urn)]⟩

/-- Source `Client.GetProfileAbout`. -/
def GetProfileAbout (urn : String) : Call :=
  .request "GET" "api/v1/profile/about" ⟨[("urn", urn)]⟩

/-- Source `Client.GetProfileReactions`. -/
def GetProfileReactions (urn cursor : String) : Call :=
  let params : Params := ⟨[("urn", urn)]⟩
  let params := stringParam params "cursor" cursor
  .request "GET" "api/v1/profile/reactions" params

/-- Source `Client.GetProfileInterests`. -/
def GetProfileInterests (urn : String) : Call :=
  .request "GET" "api/v1/profile/interests" ⟨[("urn", urn)]⟩

/-- Source `Client.GetFullProfile`. -/
def GetFullProfile (username urn : String) : Call :=
  if username = "" ∧ urn = "" then
    .localError (.validation "either username or urn must be provided")
  else
    let params := Params.empty
    let params := stringParam params "username" username
    let params := stringParam params "urn" urn
    .request "GET" "api/v1/profile/full" params

/-- Source `Client.GetProfileServices`. -/
def GetProfileServices (urn : String) : Call :=
  .request "GET" "api/v1/profile/services" ⟨[("urn", urn)]⟩

/-- Source `Client.GetProfileURN`. -/
def GetProfileURN (username : String) : Call :=
  .request "GET" "api/v1/profile/username-to-urn" ⟨[("username", username)]⟩

/-- Source `Client.GetProfilePostedJobs`. -/
def GetProfilePostedJobs (profileUrn : String) (start count : Int) : Call :=
  let params : Params := ⟨[("profileUrn", profileUrn)]⟩
  let params := intParam params "start" start
  let params := intParam params "count" count
  .request "GET" "api/v1/jobs/posted-by-profile" params

/-! ### `comments.go` -/

/-- Source `Client.GetAllComments`. -/
def GetAllComments (urn cursor : String) : Call :=
  let params : Params := ⟨[("urn", urn)]⟩
  let params := stringParam params "cursor" cursor
  .request "GET" "api/v1/comments/all" params

/-- Source `Client.GetCommentLikes`. -/
def GetCommentLikes (urns : String) (start : Int) : Call :=
  let params : Params := ⟨[("urn", urns)]⟩
  let params := intParam params "start" start
  .request "GET" "api/v1/comments/likes" params

/-! ### `posts.go` -/

/-- Source `Client.GetFeaturedPosts`. -/
def GetFeaturedPosts (urn : String) : Call :=
  .request "GET" "api/v1/posts/featured" ⟨[("urn", urn)]⟩

/-- Source `Client.GetAllPosts`. -/
def GetAllPosts (urn cursor : String) (start : Int) : Call :=
  let params : Params := ⟨[("urn", urn)]⟩
  let params := stringParam params "cursor" cursor
  let params := intParam params "start" start
  .request "GET" "api/v1/posts/all" params

/-- Source `Client.GetPostInfo`. -/
def GetPostInfo (urn : String) : Call :=
  .request "GET" "api/v1/posts/info" ⟨[("urn", urn)]⟩

/-- Source `Client.GetPostComments`. -/
def GetPostComments (urn : String) (start count : Int) (cursor : String) : Call :=
  let params : Params := ⟨[("urn", urn)]⟩
  let params := intParam params "start" start
  let params := intParam params "count" count
  let params := stringParam params "cursor" cursor
  .request "GET" "api/v1/posts/comments" params

/-- Source `Client.GetPostLikes`. -/
def GetPostLikes (urn : String) (start : Int) : Call :=
  let params : Params := ⟨[("urn", urn)]⟩
  let params := intParam params "start" start
  .request "GET" "api/v1/posts/likes" params

/-! ### `jobs.go` -/

/-- Source `Client.SearchJobs`. -/
def SearchJobs (searchParams : JobSearchParams) : Call :=
  let params := Params.empty
  let params := stringParam params "keyword" searchParams.Keyword
  let params := stringParam params "location" searchParams.Location
  let params := stringParam params "geoId" searchParams.GeoID
  let params := sliceParam params "companyIds" searchParams.CompanyIDs
  let params := sliceParam params "jobTypes" searchParams.JobTypes
  let params := sliceParam params "experience" searchParams.Experience
  let params := sliceParam params "regions" searchParams.Regions
  let params := stringParam params "timePosted" searchParams.TimePosted
  let params := stringParam params "salary" searchParams.Salary
  let params := sliceParam params "workArrangement" searchParams.WorkArrangement
  let params := intParam params "start" searchParams.Start
  .request "GET" "api/v1/jobs/search" params

/-- Source `Client.GetJobDetails`. -/
def GetJobDetails (jobID : String) : Call :=
  .request "GET" "api/v1/jobs/job/details" ⟨[("jobId", jobID)]⟩

/-- Source `Client.GetSimilarJobs`. -/
def GetSimilarJobs (jobID : String) : Call :=
  .request "GET" "api/v1/jobs/job/similar" ⟨[("jobId", jobID)]⟩

/-- Source `Client.GetPeopleAlsoViewedJobs`. -/
def GetPeopleAlsoViewedJobs (jobID : String) : Call :=
  .request "GET" "api/v1/jobs/job/people-also-viewed" ⟨[("jobId", jobID)]⟩

/-- Source `Client.GetJobDetailsV2`. -/
def GetJobDetailsV2 (jobID : String) : Call :=
  .request "GET" "api/v1/jobs/job/details-v2" ⟨[("jobId", jobID)]⟩

/-- Source `Client.SearchJobsV2`. -/
def SearchJobsV2 (searchParams : JobSearchV2Params) : Call :=
  let params := Params.empty
  let params := stringParam params "keyword" searchParams.Keyword
  let params := intParam params "start" searchParams.Start
  let params := stringParam params "sortBy" searchParams.SortBy
  let params := stringParam params "datePosted" searchParams.DatePosted
  let params := sliceParam params "experience" searchParams.Experience
  let params := sliceParam params "jobTypes" searchParams.JobTypes
  let params := sliceParam params "workplaceTypes" searchParams.WorkplaceTypes
  let params := stringParam params "salary" searchParams.Salary
  let params := sliceParam params "companies" searchParams.Companies
  let params := sliceParam params "industries" searchParams.Industries
  let params := sliceParam params "locations" searchParams.Locations
  let params := sliceParam params "functions" searchParams.Functions
  let params := sliceParam params "titles" searchParams.Titles
  let params := sliceParam params "Benefits" searchParams.Benefits
  let params := sliceParam params "commitments" searchParams.Commitments
  let params := boolParam params "easyApply" searchParams.EasyApply
  let params := boolParam params "verifiedJob" searchParams.VerifiedJob
  let params := boolParam params "under10Applicants" searchParams.Under10Applicants
  let params := boolParam params "fairChance" searchParams.FairChance
  .request "GET" "api/v1/search/jobs" params

/-- Source `Client.GetHiringTeam`. -/
def GetHiringTeam (jobID : String) (start : Int) : Call :=
  let params : Params := ⟨[("jobId", jobID)]⟩
  let params := intParam params "start" start
  .request "GET" "api/v1/jobs/job/hiring-team" params

/-! ### The endpoint surface as one type -/

/-- One invocation of an endpoint method of `companies.go`, `profile.go`, `comments.go`,
`posts.go` or `jobs.go`, with its arguments. -/
inductive Endpoint where
  | companyNameLookup (query : String)
  | getCompanyInfo (companyID name : String)
  | getSimilarCompanies (companyID : String)
  | getCompanyEmployeesData (companyID : String)
  | getCompanyJobs (companyIDs : List String) (start : Int)
  | getCompanyAffiliatedPages (companyID : String)
  | getCompanyPosts (companyID : String) (start : Int)
  | getCompanyID (universalName : String)
  | getCompanyDetailsV2 (companyID : String)
  | getProfileOverview (username : String)
  | getProfileDetails (urn : String)
  | getContactInfo (username : String)
  | getFullExperience (urn : String)
  | getCertifications (urn : String)
  | getEducation (urn : String)
  | getSkills (urn : String)
  | getSocialMatrix (username : String)
  | getRecommendations (urn : String)
  | getSimilarProfiles (urn : String)
  | getProfileAbout (urn : String)
  | getProfileReactions (urn cursor : String)
  | getProfileInterests (urn : String)
  | getFullProfile (username urn : String)
  | getProfileServices (urn : String)
  | getProfileURN (username : String)
  | getProfilePostedJobs (profileUrn : String) (start count : Int)
  | getAllComments (urn cursor : String)
  | getCommentLikes (urns : String) (start : Int)
  | getFeaturedPosts (urn : String)
  | getAllPosts (urn cursor : String) (start : Int)
  | getPostInfo (urn : String)
  | getPostComments (urn : String) (start count : Int) (cursor : String)
  | getPostLikes (urn : String) (start : Int)
  | searchJobs (searchParams : JobSearchParams)
  | getJobDetails (jobID : String)
  | getSimilarJobs (jobID : String)
  | getPeopleAlsoViewedJobs (jobID : String)
  | getJobDetailsV2 (jobID : String)
  | searchJobsV2 (searchParams : JobSearchV2Params)
  | getHiringTeam (jobID : String) (start : Int)

/-- The method an invocation stands for. -/
def Endpoint.call : Endpoint → Call
  | .companyNameLookup query => CompanyNameLookup query
  | .getCompanyInfo companyID name => GetCompanyInfo companyID name
  | .getSimilarCompanies companyID => GetSimilarCompanies companyID
  | .getCompanyEmployeesData companyID => GetCompanyEmployeesData companyID
  | .getCompanyJobs companyIDs start => GetCompanyJobs companyIDs start
  | .getCompanyAffiliatedPages companyID => GetCompanyAffiliatedPages companyID
  | .getCompanyPosts companyID start => GetCompanyPosts companyID start
  | .getCompanyID universalName => GetCompanyID universalName
  | .getCompanyDetailsV2 companyID => GetCompanyDetailsV2 companyID
  | .getProfileOverview username => GetProfileOverview username
  | .getProfileDetails urn => GetProfileDetails urn
  | .getContactInfo username => GetContactInfo username
  | .getFullExperience urn => GetFullExperience urn
  | .getCertifications urn => GetCertifications urn
  | .getEducation urn => GetEducation urn
  | .getSkills urn => GetSkills urn
  | .getSocialMatrix username => GetSocialMatrix username
  | .getRecommendations urn => GetRecommendations urn
  | .getSimilarProfiles urn => GetSimilarProfiles urn
  | .getProfileAbout urn => GetProfileAbout urn
  | .getProfileReactions urn cursor => GetProfileReactions urn cursor
  | .getProfileInterests urn => GetProfileInterests urn
  | .getFullProfile username urn => GetFullProfile username urn
  | .getProfileServices urn => GetProfileServices urn
  | .getProfileURN username => GetProfileURN username
  | .getProfilePostedJobs profileUrn start count => GetProfilePostedJobs profileUrn start count
  | .getAllComments urn cursor => GetAllComments urn cursor
  | .getCommentLikes urns start => GetCommentLikes urns start
  | .getFeaturedPosts urn => GetFeaturedPosts urn
  | .getAllPosts urn cursor start => GetAllPosts urn cursor start
  | .getPostInfo urn => GetPostInfo urn
  | .getPostComments urn start count cursor => GetPostComments urn start count cursor
  | .getPostLikes urn start => GetPostLikes urn start
  | .searchJobs searchParams => SearchJobs searchParams
  | .getJobDetails jobID => GetJobDetails jobID
  | .getSimilarJobs jobID => GetSimilarJobs jobID
  | .getPeopleAlsoViewedJobs jobID => GetPeopleAlsoViewedJobs jobID
  | .getJobDetailsV2 jobID => GetJobDetailsV2 jobID
  | .searchJobsV2 searchParams => SearchJobsV2 searchParams
  | .getHiringTeam jobID start => GetHiringTeam jobID start

/-- One string argument of an endpoint method: the query key it is sent under, its value,
and whether the method passes it through `stringParam` (`viaStringParam = true`) or writes
it into the map literal (`viaStringParam = false`). -/
structure StringArg where
  key : String
  value : String
  viaStringParam : Bool
deriving DecidableEq, Repr

/-- The string arguments (and string fields of the argument struct) of an invocation. -/
def Endpoint.stringArgs : Endpoint → List StringArg
  | .companyNameLookup query => [⟨"query", query, false⟩]
  | .getCompanyInfo companyID name => [⟨"id", companyID, true⟩, ⟨"name", name, true⟩]
  | .getSimilarCompanies companyID => [⟨"id", companyID, false⟩]
  | .getCompanyEmployeesData companyID => [⟨"id", companyID, false⟩]
  | .getCompanyJobs _ _ => []
  | .getCompanyAffiliatedPages companyID => [⟨"id", companyID, false⟩]
  | .getCompanyPosts companyID _ => [⟨"id", companyID, false⟩]
  | .getCompanyID universalName => [⟨"universalName", universalName, false⟩]
  | .getCompanyDetailsV2 companyID => [⟨"id", companyID, false⟩]
  | .getProfileOverview username => [⟨"username", username, false⟩]
  | .getProfileDetails urn => [⟨"urn", urn, false⟩]
  | .getContactInfo username => [⟨"username", username, false⟩]
  | .getFullExperience urn => [⟨"urn", urn, false⟩]
  | .getCertifications urn => [⟨"urn", urn, false⟩]
  | .getEducation urn => [⟨"urn", urn, false⟩]
  | .getSkills urn => [⟨"urn", urn, false⟩]
  | .getSocialMatrix username => [⟨"username", username, false⟩]
  | .getRecommendations urn => [⟨"urn", urn, false⟩]
  | .getSimilarProfiles urn => [⟨"urn", urn, false⟩]
  | .getProfileAbout urn => [⟨"urn", urn, false⟩]
  | .getProfileReactions urn cursor => [⟨"urn", urn, false⟩, ⟨"cursor", cursor, true⟩]
  | .getProfileInterests urn => [⟨"urn", urn, false⟩]
  | .getFullProfile username urn => [⟨"username", username, true⟩, ⟨"urn", urn, true⟩]
  | .getProfileServices urn => [⟨"urn", urn, false⟩]
  | .getProfileURN username => [⟨"username", username, false⟩]
  | .getProfilePostedJobs profileUrn _ _ => [⟨"profileUrn", profileUrn, false⟩]
  | .getAllComments urn cursor => [⟨"urn", urn, false⟩, ⟨"cursor", cursor, true⟩]
  | .getCommentLikes urns _ => [⟨"urn", urns, false⟩]
  | .getFeaturedPosts urn => [⟨"urn", urn, false⟩]
  | .getAllPosts urn cursor _ => [⟨"urn", urn, false⟩, ⟨"cursor", cursor, true⟩]
  | .getPostInfo urn => [⟨"urn", urn, false⟩]
  | .getPostComments urn _ _ cursor => [⟨"urn", urn, false⟩, ⟨"cursor", cursor, true⟩]
  | .getPostLikes urn _ => [⟨"urn", urn, false⟩]
  | .searchJobs p =>
    [⟨"keyword", p.Keyword, true⟩, ⟨"location", p.Location, true⟩, ⟨"geoId", p.GeoID, true⟩,
     ⟨"timePosted", p.TimePosted, true⟩, ⟨"salary", p.Salary, true⟩]
  | .getJobDetails jobID => [⟨"jobId", jobID, false⟩]
  | .getSimilarJobs jobID => [⟨"jobId", jobID, false⟩]
  | .getPeopleAlsoViewedJobs jobID => [⟨"jobId", jobID, false⟩]
  | .getJobDetailsV2 jobID => [⟨"jobId", jobID, false⟩]
  | .searchJobsV2 p =>
    [⟨"keyword", p.Keyword, true⟩, ⟨"sortBy", p.SortBy, true⟩,
     ⟨"datePosted", p.DatePosted, true⟩, ⟨"salary", p.Salary, true⟩]
  | .getHiringTeam jobID _ => [⟨"jobId", jobID, false⟩]

/-! ## Configuration (`config.go`) and the constructors (`client.go`) -/

/-- Go `time.Second` in nanoseconds, the unit of `time.Duration`. -/
def second : Int := 1000000000

/-- A non-nil `context.Context`: the background context or one supplied by the caller. -/
inductive Context where
  | background
  | supplied (id : Nat)
deriving DecidableEq, Repr

/-- Source `Config`. A nil `Context` is `none`. -/
structure Config where
  BaseURL : String
  Timeout : Int
  MaxRetries : Int
  RetryDelay : Int
  Context : Option Context
deriving DecidableEq, Repr

/-- Source `DefaultConfig`: the `Context` field is not set, so it is nil. -/
def DefaultConfig : Config :=
  { BaseURL := "https://linkdapi.com"
    Timeout := 30 * second
    MaxRetries := 3
    RetryDelay := 1 * second
    Context := none }

/-- The value `NewClientWithConfig` returns: the fields of `Client` used by the run model,
the field `ctx`, and the timeout given to the `http.Client`. -/
structure ClientWithContext extends Client where
  ctx : Context
  httpClientTimeout : Int
deriving DecidableEq, Repr

/-- Source `NewClientWithConfig`; a nil `config` is `none`. -/
def NewClientWithConfig (apiKey : String) (config : Option Config) : ClientWithContext :=
  let config := match config with
    | none => DefaultConfig
    | some cfg => cfg
  let ctx := match config.Context with
    | none => Context.background
    | some supplied => supplied
  { apiKey := apiKey
    baseURL := trimRightSlash config.BaseURL
    maxRetries := config.MaxRetries
    retryDelay := config.RetryDelay
    timeout := config.Timeout
    ctx := ctx
    httpClientTimeout := config.Timeout }

/-- Source `NewClient`. -/
def NewClient (apiKey : String) : ClientWithContext :=
  NewClientWithConfig apiKey (some DefaultConfig)

/-! ## Definitions used to state the claims -/

/-- The spec's "entries comma-joined in original order": the entries in their order with
exactly one comma between two consecutive entries, none before the first and none after
the last. -/
def commaJoined : List String → String
  | [] => ""
  | [a] => a
  | a :: b :: rest => a ++ "," ++ commaJoined (b :: rest)

/-- An observation after which the source records `lastErr` and, if attempts remain,
sleeps and continues: a transport error, a body-read error or a status code outside
[200,300). -/
def Attempt.retryable : Attempt → Bool
  | .doFails _ => true
  | .readFails _ _ => true
  | .response statusCode _ => decide (statusCode < 200 ∨ statusCode ≥ 300)
  | .ctxDone _ => false
  | .newRequestFails _ => false

/-- The events of `n` consecutive failed attempts that are retried, the first one with
index `start`: each is a dispatch followed by the sleep of that attempt. -/
def Client.retryEvents (c : Client) (req : Request) : Nat → Nat → List Event
  | _, 0 => []
  | start, n + 1 =>
    .dispatch req :: .sleep (c.backoff start) :: c.retryEvents req (start + 1) n

/-- The number of entries of a header set whose name is `name`, header names compared
without regard to case. -/
def headerCount (header : Params) (name : String) : Nat :=
  (header.entries.filter
    (fun kv => kv.1.data.map Char.toLower = name.data.map Char.toLower)).length

/-- The spec's "trimmed of leading/trailing separators": every leading and every trailing
`/` removed. -/
def trimSlashes (s : String) : String :=
  trimLeftSlash (trimRightSlash s)

/-- The request URL as the spec describes it: base URL and endpoint path, each trimmed of
leading and trailing separators, joined by one `/`, with the URL-encoded parameter set
after a `?` when the set is not empty. -/
def specRequestURL (baseURL endpoint : String) (params : Params) : String :=
  let joined := trimSlashes baseURL ++ "/" ++ trimSlashes endpoint
  if params.len > 0 then joined ++ "?" ++ valuesEncode params else joined

/-- Modelled from the spec: the server-side test double that echoes the received query
parameters is not in the sources. A string field is read back as the value under its key,
the empty string when the key is absent. -/
def decodeString (params : Params) (key : String) : String :=
  (params.get? key).getD ""

/-- Modelled from the spec: the value of a run of decimal digits read after the
accumulated value `acc`; `none` when a character is not a decimal digit. -/
def decimalValue : List Char → Nat → Option Nat
  | [], acc => some acc
  | ch :: rest, acc =>
    if ch.isDigit then decimalValue rest (acc * 10 + (ch.toNat - 48)) else none

/-- Modelled from the spec: a non-empty run of decimal digits read as a natural number. -/
def parseNat (chars : List Char) : Option Nat :=
  if chars = [] then none else decimalValue chars 0

/-- Modelled from the spec: a decimal integer, with a `-` in front when negative, read
back from its text. -/
def parseInt (s : String) : Option Int :=
  match s.data with
  | '-' :: rest => (parseNat rest).map (fun n => -Int.ofNat n)
  | chars => (parseNat chars).map Int.ofNat

/-- Modelled from the spec: an integer field is read back by parsing the value under its
key; `none` when the key is absent or the value is not a decimal integer. -/
def decodeInt (params : Params) (key : String) : Option Int :=
  (params.get? key).bind parseInt

/-- Modelled from the spec: an optional boolean field is read back as unset when the key
is absent, and as true or false from the literals `true` and `false`. -/
def decodeBool (params : Params) (key : String) : Option Bool :=
  match params.get? key with
  | none => none
  | some value => if value = "true" then some true else if value = "false" then some false
    else none

/-- Modelled from the spec: "splitting the value on commas", Go `strings.Split(s, ",")`. -/
def splitComma (s : String) : List String :=
  (s.data.splitOn ',').map String.mk

/-- Modelled from the spec: a string-list field is read back as the empty list when the
key is absent, and by splitting the value under its key on commas otherwise. -/
def decodeSlice (params : Params) (key : String) : List String :=
  match params.get? key with
  | none => []
  | some value => splitComma value

/-- Go `json.Unmarshal(body, &result)` on the body `null`: the JSON null value unmarshals
into a map by setting the map to nil, and no error is returned. Every other body is left
to the decoder `other`. -/
def unmarshalNull (other : Unmarshal) : Unmarshal :=
  fun body => if body = "null" then .ok none else other body

/-- JSON whitespace: space, tab, line feed and carriage return. -/
def isJsonSpace (ch : Char) : Bool :=
  ch.toNat = 32 || ch.toNat = 9 || ch.toNat = 10 || ch.toNat = 13

/-- A necessary condition for a text to be a JSON object: after whitespace it starts with
an opening brace (character 123). -/
def jsonObjectStart (body : String) : Bool :=
  (body.data.dropWhile isJsonSpace).head? = some (Char.ofNat 123)

/-! ## Lemmas on parameter sets -/

theorem getEntries_setEntries_self (l : List (String × String)) (key value : String) :
    Params.getEntries (Params.setEntries l key value) key = some value := by
  induction l with
  | nil => simp [Params.setEntries, Params.getEntries]
  | cons kv rest ih =>
    obtain ⟨k, v⟩ := kv
    by_cases h : k = key
    · simp [Params.setEntries, Params.getEntries, h]
    · simp [Params.setEntries, Params.getEntries, h, ih]

theorem getEntries_setEntries_ne (l : List (String × String)) (key value other : String)
    (h : other ≠ key) :
    Params.getEntries (Params.setEntries l key value) other = Params.getEntries l other := by
  induction l with
  | nil => simp [Params.setEntries, Params.getEntries, Ne.symm h]
  | cons kv rest ih =>
    obtain ⟨k, v⟩ := kv
    by_cases hk : k = key
    · subst hk
      simp [Params.setEntries, Params.getEntries, Ne.symm h]
    · by_cases ho : k = other
      · subst ho
        simp [Params.setEntries, Params.getEntries, hk]
      · simp [Params.setEntries, Params.getEntries, hk, ho, ih]

@[simp]
theorem Params.get?_set_self (m : Params) (key value : String) :
    (m.set key value).get? key = some value :=
  getEntries_setEntries_self m.entries key value

theorem Params.get?_set_ne (m : Params) (key value other : String) (h : other ≠ key) :
    (m.set key value).get? other = m.get? other :=
  getEntries_setEntries_ne m.entries key value other h

theorem Params.get?_set (m : Params) (key value other : String) :
    (m.set key value).get? other = if other = key then some value else m.get? other := by
  by_cases h : other = key
  · subst h; simp
  · simp [h, Params.get?_set_ne m key value other h]

@[simp]
theorem Params.get?_empty (key : String) : Params.empty.get? key = none := rfl

/-- Writing the value a key already has changes nothing. -/
theorem setEntries_of_getEntries (l : List (String × String)) (key value : String)
    (h : Params.getEntries l key = some value) : Params.setEntries l key value = l := by
  induction l with
  | nil => simp [Params.getEntries] at h
  | cons kv rest ih =>
    obtain ⟨k, v⟩ := kv
    by_cases hk : k = key
    · simp [Params.getEntries, hk] at h
      simp [Params.setEntries, hk, h]
    · simp [Params.getEntries, hk] at h
      simp [Params.setEntries, hk, ih h]

/-- CLAIM C8. For every parameter map, key and value: `stringParam` returns the map
unchanged when the value is empty; when the value is not empty the key is bound to exactly
that value; and in both cases every other key keeps the binding it had. -/
theorem stringParam_spec (params : Params) (key value : String) :
    (value = "" → stringParam params key value = params) ∧
    (value ≠ "" → (stringParam params key value).get? key = some value) ∧
    (∀ other : String, other ≠ key →
      (stringParam params key value).get? other = params.get? other) := by
  refine ⟨?_, ?_, ?_⟩
  · intro h
    simp [stringParam, h]
  · intro h
    simp [stringParam, h]
  · intro other ho
    by_cases h : value = ""
    · simp [stringParam, h]
    · simp [stringParam, h, Params.get?_set_ne _ _ _ _ ho]

/-- Witness of `stringParam_spec` on a map that already binds two keys. -/
theorem stringParam_spec_witness :
    stringParam ⟨[("urn", "u1"), ("cursor", "old")]⟩ "cursor" "" =
        ⟨[("urn", "u1"), ("cursor", "old")]⟩ ∧
    (stringParam ⟨[("urn", "u1"), ("cursor", "old")]⟩ "cursor" "c2").get? "cursor" =
        some "c2" ∧
    (stringParam ⟨[("urn", "u1"), ("cursor", "old")]⟩ "cursor" "c2").get? "urn" =
        (⟨[("urn", "u1"), ("cursor", "old")]⟩ : Params).get? "urn" :=
  ⟨(stringParam_spec ⟨[("urn", "u1"), ("cursor", "old")]⟩ "cursor" "").1 rfl,
   (stringParam_spec ⟨[("urn", "u1"), ("cursor", "old")]⟩ "cursor" "c2").2.1 (by decide),
   (stringParam_spec ⟨[("urn", "u1"), ("cursor", "old")]⟩ "cursor" "c2").2.2 "urn"
     (by decide)⟩

theorem get?_stringParam_ne (m : Params) (key value other : String) (h : other ≠ key) :
    (stringParam m key value).get? other = m.get? other := by
  unfold stringParam
  split
  · exact Params.get?_set_ne _ _ _ _ h
  · rfl

theorem get?_intParam_ne (m : Params) (key : String) (value : Int) (other : String)
    (h : other ≠ key) : (intParam m key value).get? other = m.get? other :=
  Params.get?_set_ne _ _ _ _ h

theorem get?_boolParam_ne (m : Params) (key : String) (value : Option Bool) (other : String)
    (h : other ≠ key) : (boolParam m key value).get? other = m.get? other := by
  cases value with
  | none => rfl
  | some b => cases b <;> exact Params.get?_set_ne _ _ _ _ h

theorem get?_sliceParam_ne (m : Params) (key : String) (values : List String)
    (other : String) (h : other ≠ key) :
    (sliceParam m key values).get? other = m.get? other := by
  unfold sliceParam
  split
  · exact Params.get?_set_ne _ _ _ _ h
  · rfl

theorem Params.set_of_get? (m : Params) (key value : String)
    (h : m.get? key = some value) : m.set key value = m := by
  cases m with
  | mk entries =>
    simp only [Params.set]
    congr 1
    exact setEntries_of_getEntries entries key value h

/-! ## Claim C9: `boolParam` -/

/-- CLAIM C9 (counterexample). On the map that already binds `easyApply` to `"false"`, an
unset boolean and an explicit false give the same parameter set, so the two cannot be told
apart in the result. -/
theorem boolParam_unset_false_same_result :
    boolParam ⟨[("easyApply", "false")]⟩ "easyApply" none =
      boolParam ⟨[("easyApply", "false")]⟩ "easyApply" (some false) := by
  decide

/-- CLAIM C9 (amended). For every parameter map and key: `boolParam` returns the map
unchanged for an unset boolean, binds the key to the literal `"true"` for true and to the
literal `"false"` for false, leaves every other key as it was, and the results for unset
and for false coincide exactly when the map already bound the key to `"false"`; for a key
the map does not hold, unset leaves it absent and false makes it present. -/
theorem boolParam_spec (params : Params) (key : String) :
    boolParam params key none = params ∧
    boolParam params key (some true) = params.set key "true" ∧
    (boolParam params key (some true)).get? key = some "true" ∧
    boolParam params key (some false) = params.set key "false" ∧
    (boolParam params key (some false)).get? key = some "false" ∧
    (∀ (value : Option Bool) (other : String), other ≠ key →
      (boolParam params key value).get? other = params.get? other) ∧
    (boolParam params key none = boolParam params key (some false) ↔
      params.get? key = some "false") ∧
    (params.get? key = none →
      (boolParam params key none).get? key = none ∧
      (boolParam params key (some false)).get? key = some "false") := by
  refine ⟨rfl, rfl, ?_, rfl, ?_, ?_, ?_, ?_⟩
  · simp [boolParam]
  · simp [boolParam]
  · intro value other h
    exact get?_boolParam_ne params key value other h
  · constructor
    · intro h
      have h2 : (boolParam params key none).get? key =
          (boolParam params key (some false)).get? key := by rw [h]
      simpa [boolParam] using h2
    · intro h
      simp [boolParam, Params.set_of_get? params key "false" h]
  · intro h
    simp [boolParam, h]

/-- Witness of `boolParam_spec` on the empty map, where the key is absent. -/
theorem boolParam_spec_witness :
    (boolParam Params.empty "easyApply" none).get? "easyApply" = none ∧
    (boolParam Params.empty "easyApply" (some false)).get? "easyApply" = some "false" ∧
    (boolParam Params.empty "easyApply" (some true)).get? "verifiedJob" =
      Params.empty.get? "verifiedJob" :=
  ⟨((boolParam_spec Params.empty "easyApply").2.2.2.2.2.2.2 rfl).1,
   ((boolParam_spec Params.empty "easyApply").2.2.2.2.2.2.2 rfl).2,
   (boolParam_spec Params.empty "easyApply").2.2.2.2.2.1 (some true) "verifiedJob"
     (by decide)⟩

/-! ## Claim C10: `sliceParam` -/

theorem foldl_join_append (sep : String) (rest : List String) (p a : String) :
    rest.foldl (fun b s => b ++ sep ++ s) (p ++ a) =
      p ++ rest.foldl (fun b s => b ++ sep ++ s) a := by
  induction rest generalizing a with
  | nil => rfl
  | cons s rest ih =>
    simp only [List.foldl_cons]
    rw [String.append_assoc, String.append_assoc, ← String.append_assoc a sep s]
    exact ih (a ++ sep ++ s)

theorem stringsJoin_cons (sep a : String) (rest : List String) :
    stringsJoin (a :: rest) sep = rest.foldl (fun b s => b ++ sep ++ s) a := by
  cases rest <;> rfl

theorem stringsJoin_cons_cons (sep a b : String) (rest : List String) :
    stringsJoin (a :: b :: rest) sep = a ++ sep ++ stringsJoin (b :: rest) sep := by
  rw [stringsJoin_cons, stringsJoin_cons, List.foldl_cons, foldl_join_append]

/-- Go `strings.Join(values, ",")` is the comma-joined value of the spec. -/
theorem stringsJoin_eq_commaJoined (values : List String) :
    stringsJoin values "," = commaJoined values := by
  induction values with
  | nil => rfl
  | cons a rest ih =>
    cases rest with
    | nil => rfl
    | cons b rest =>
      rw [stringsJoin_cons_cons, ih]
      rfl

theorem commaJoined_length (values : List String) :
    (commaJoined values).length = (values.map String.length).sum + (values.length - 1) := by
  induction values with
  | nil => rfl
  | cons a rest ih =>
    cases rest with
    | nil => simp [commaJoined]
    | cons b rest =>
      simp only [commaJoined, String.length_append, ih]
      simp
      have : (",":String).length = 1 := rfl
      omega

theorem commaJoined_append_last (init : List String) (last : String) :
    ∃ front : String, commaJoined (init ++ [last]) = front ++ last := by
  induction init with
  | nil => exact ⟨"", by simp [commaJoined]⟩
  | cons a init ih =>
    obtain ⟨front, hf⟩ := ih
    cases hinit : init ++ [last] with
    | nil => simp at hinit
    | cons b rest =>
      refine ⟨a ++ "," ++ front, ?_⟩
      rw [List.cons_append, hinit]
      rw [hinit] at hf
      simp only [commaJoined, hf, String.append_assoc]

theorem commaJoined_cons (first : String) (rest : List String) :
    ∃ tail : String, commaJoined (first :: rest) = first ++ tail := by
  cases rest with
  | nil => exact ⟨"", by simp [commaJoined]⟩
  | cons b rest => exact ⟨"," ++ commaJoined (b :: rest), by simp [commaJoined, String.append_assoc]⟩

theorem head?_data_append_left (s t : String) (h : s ≠ "") :
    (s ++ t).data.head? = s.data.head? := by
  have hne : s.data ≠ [] := fun hd => h (String.ext hd)
  cases hs : s.data with
  | nil => exact absurd hs hne
  | cons ch rest => simp [hs]

theorem getLast?_data_append_right (s t : String) (h : t ≠ "") :
    (s ++ t).data.getLast? = t.data.getLast? := by
  have hne : t.data ≠ [] := fun hd => h (String.ext hd)
  rw [String.data_append]
  exact List.getLast?_append_of_ne_nil _ hne

/-- CLAIM C10. For every parameter map, key and list of strings: `sliceParam` returns the
map unchanged for a list with no entries, and for a list with N > 0 entries binds the key
to the entries joined by single commas in their original order: the value is
`commaJoined values`, it starts with the first entry (no comma before it), ends with the
last entry (no comma after it), and its length is the entries' lengths plus N - 1 commas.
Every other key keeps its binding. The value begins (ends) with a comma only if the first
(last) entry is empty or begins (ends) with one itself. -/
theorem sliceParam_spec (params : Params) (key : String) (values : List String) :
    (values.length = 0 → sliceParam params key values = params) ∧
    (values.length > 0 →
      sliceParam params key values = params.set key (stringsJoin values ",") ∧
      (sliceParam params key values).get? key = some (commaJoined values)) ∧
    (∀ (first : String) (rest : List String), values = first :: rest →
      ∃ tail : String, stringsJoin values "," = first ++ tail) ∧
    (∀ (init : List String) (last : String), values = init ++ [last] →
      ∃ front : String, stringsJoin values "," = front ++ last) ∧
    (stringsJoin values ",").length =
      (values.map String.length).sum + (values.length - 1) ∧
    (∀ other : String, other ≠ key →
      (sliceParam params key values).get? other = params.get? other) ∧
    (∀ (first : String) (rest : List String), values = first :: rest →
      first ≠ "" → first.data.head? ≠ some ',' →
      (stringsJoin values ",").data.head? ≠ some ',') ∧
    (∀ (init : List String) (last : String), values = init ++ [last] →
      last ≠ "" → last.data.getLast? ≠ some ',' →
      (stringsJoin values ",").data.getLast? ≠ some ',') := by
  refine ⟨?_, ?_, ?_, ?_, ?_, ?_, ?_, ?_⟩
  · intro h
    simp [sliceParam, h]
  · intro h
    simp [sliceParam, h, stringsJoin_eq_commaJoined]
  · intro first rest h
    rw [stringsJoin_eq_commaJoined, h]
    exact commaJoined_cons first rest
  · intro init last h
    rw [stringsJoin_eq_commaJoined, h]
    exact commaJoined_append_last init last
  · rw [stringsJoin_eq_commaJoined]
    exact commaJoined_length values
  · intro other h
    exact get?_sliceParam_ne params key values other h
  · intro first rest h hne hhead
    obtain ⟨tail, ht⟩ := commaJoined_cons first rest
    rw [stringsJoin_eq_commaJoined, h, ht, head?_data_append_left first tail hne]
    exact hhead
  · intro init last h hne hlast
    obtain ⟨front, hf⟩ := commaJoined_append_last init last
    rw [stringsJoin_eq_commaJoined, h, hf, getLast?_data_append_right front last hne]
    exact hlast

/-- Witness of `sliceParam_spec`: three entries give `a,b,c`, no entries leave the map as
it was. -/
theorem sliceParam_spec_witness :
    sliceParam ⟨[("start", "0")]⟩ "companyIds" [] = ⟨[("start", "0")]⟩ ∧
    (sliceParam ⟨[("start", "0")]⟩ "companyIds" ["a", "b", "c"]).get? "companyIds" =
      some "a,b,c" ∧
    (∃ front : String, stringsJoin ["a", "b", "c"] "," = front ++ "c") :=
  ⟨(sliceParam_spec ⟨[("start", "0")]⟩ "companyIds" []).1 rfl,
   ((sliceParam_spec ⟨[("start", "0")]⟩ "companyIds" ["a", "b", "c"]).2.1 (by decide)).2,
   (sliceParam_spec ⟨[("start", "0")]⟩ "companyIds" ["a", "b", "c"]).2.2.2.1 ["a", "b"] "c"
     rfl⟩

/-! ## Claim C6: local validation in `GetCompanyInfo` and `GetFullProfile` -/

theorem mem_entries_two_stringParams (k1 k2 v1 v2 : String) (hk : k1 ≠ k2)
    (hne : ¬(v1 = "" ∧ v2 = "")) (k v : String) :
    (k, v) ∈ (stringParam (stringParam Params.empty k1 v1) k2 v2).entries ↔
      (k = k1 ∧ v = v1 ∧ v1 ≠ "") ∨ (k = k2 ∧ v = v2 ∧ v2 ≠ "") := by
  by_cases h1 : v1 = "" <;> by_cases h2 : v2 = ""
  · exact absurd ⟨h1, h2⟩ hne
  · simp [stringParam, h1, h2, Params.set, Params.setEntries, Params.empty]
  · simp [stringParam, h1, h2, Params.set, Params.setEntries, Params.empty]
  · simp [stringParam, h1, h2, Params.set, Params.setEntries, Params.empty, hk]

/-- CLAIM C6. `GetCompanyInfo(companyID, name)` returns a local validation error without
calling `sendRequest` if and only if both arguments are empty, and so does
`GetFullProfile(username, urn)`; a run of the rejected call dispatches nothing. In every
other case the method calls `sendRequest` with a parameter set whose entries are exactly
the non-empty ones of the two arguments, under the keys `id`/`name` and `username`/`urn`. -/
theorem validation_iff_both_empty (companyID name username urn : String) :
    ((∃ msg, GetCompanyInfo companyID name = .localError (.validation msg)) ↔
      (companyID = "" ∧ name = "")) ∧
    ((∃ msg, GetFullProfile username urn = .localError (.validation msg)) ↔
      (username = "" ∧ urn = "")) ∧
    ((companyID = "" ∧ name = "") →
      (GetCompanyInfo companyID name).params? = none ∧
      ∀ (c : Client) (unmarshal : Unmarshal) (env : Nat → Attempt),
        ∃ out, (GetCompanyInfo companyID name).run c unmarshal env = some out ∧
          out.result = none ∧ out.trace = [] ∧
          out.err = some (.validation "either companyID or name must be provided")) ∧
    ((username = "" ∧ urn = "") →
      (GetFullProfile username urn).params? = none ∧
      ∀ (c : Client) (unmarshal : Unmarshal) (env : Nat → Attempt),
        ∃ out, (GetFullProfile username urn).run c unmarshal env = some out ∧
          out.result = none ∧ out.trace = [] ∧
          out.err = some (.validation "either username or urn must be provided")) ∧
    (¬(companyID = "" ∧ name = "") →
      ∃ params, GetCompanyInfo companyID name =
          .request "GET" "api/v1/companies/company/info" params ∧
        ∀ k v, (k, v) ∈ params.entries ↔
          (k = "id" ∧ v = companyID ∧ companyID ≠ "") ∨
          (k = "name" ∧ v = name ∧ name ≠ "")) ∧
    (¬(username = "" ∧ urn = "") →
      ∃ params, GetFullProfile username urn =
          .request "GET" "api/v1/profile/full" params ∧
        ∀ k v, (k, v) ∈ params.entries ↔
          (k = "username" ∧ v = username ∧ username ≠ "") ∨
          (k = "urn" ∧ v = urn ∧ urn ≠ "")) := by
  refine ⟨?_, ?_, ?_, ?_, ?_, ?_⟩
  · constructor
    · rintro ⟨msg, h⟩
      by_contra hne
      simp [GetCompanyInfo, hne] at h
    · intro h
      exact ⟨"either companyID or name must be provided", by simp [GetCompanyInfo, h]⟩
  · constructor
    · rintro ⟨msg, h⟩
      by_contra hne
      simp [GetFullProfile, hne] at h
    · intro h
      exact ⟨"either username or urn must be provided", by simp [GetFullProfile, h]⟩
  · intro h
    refine ⟨by simp [GetCompanyInfo, h, Call.params?], fun c unmarshal env => ?_⟩
    exact ⟨⟨none, some (.validation "either companyID or name must be provided"), []⟩,
      by simp [GetCompanyInfo, h, Call.run], rfl, rfl, rfl⟩
  · intro h
    refine ⟨by simp [GetFullProfile, h, Call.params?], fun c unmarshal env => ?_⟩
    exact ⟨⟨none, some (.validation "either username or urn must be provided"), []⟩,
      by simp [GetFullProfile, h, Call.run], rfl, rfl, rfl⟩
  · intro h
    refine ⟨stringParam (stringParam Params.empty "id" companyID) "name" name,
      by simp only [GetCompanyInfo, h, if_false], ?_⟩
    exact mem_entries_two_stringParams "id" "name" companyID name (by decide) h
  · intro h
    refine ⟨stringParam (stringParam Params.empty "username" username) "urn" urn,
      by simp only [GetFullProfile, h, if_false], ?_⟩
    exact mem_entries_two_stringParams "username" "urn" username urn (by decide) h

/-- Witness of `validation_iff_both_empty`: both arguments empty are rejected locally, a
company ID alone is sent as the single entry `id`. -/
theorem validation_iff_both_empty_witness :
    (GetCompanyInfo "" "").params? = none ∧
    (GetFullProfile "" "").params? = none ∧
    (∃ params, GetCompanyInfo "1441" "" =
        .request "GET" "api/v1/companies/company/info" params ∧
      ∀ k v, (k, v) ∈ params.entries ↔
        (k = "id" ∧ v = "1441" ∧ "1441" ≠ "") ∨ (k = "name" ∧ v = "" ∧ "" ≠ "")) :=
  ⟨((validation_iff_both_empty "" "" "" "").2.2.1 ⟨rfl, rfl⟩).1,
   ((validation_iff_both_empty "" "" "" "").2.2.2.1 ⟨rfl, rfl⟩).1,
   (validation_iff_both_empty "1441" "" "" "").2.2.2.2.1 (by decide)⟩

/-! ## Claim C7: empty string arguments -/

theorem stringParam_empty (m : Params) (key : String) : stringParam m key "" = m := by
  simp [stringParam]

theorem Params.get?_singleton (key value : String) :
    (⟨[(key, value)]⟩ : Params).get? key = some value := by
  simp [Params.get?, Params.getEntries]

theorem Params.get?_singleton_ne (key value other : String) (h : other ≠ key) :
    (⟨[(key, value)]⟩ : Params).get? other = none := by
  simp [Params.get?, Params.getEntries, Ne.symm h]

/-- CLAIM C7 (counterexample). `GetProfileOverview("")` hands `sendRequest` a parameter set
that binds `username` to the empty string, and `GetAllComments("", "")` one that binds
`urn` to the empty string; the query string of the first is `username=`. -/
theorem empty_required_argument_is_sent :
    (GetProfileOverview "").params? = some ⟨[("username", "")]⟩ ∧
    (∃ p, (GetProfileOverview "").params? = some p ∧ p.get? "username" = some "") ∧
    (∃ p, (GetAllComments "" "").params? = some p ∧ p.get? "urn" = some "") ∧
    valuesEncode ⟨[("username", "")]⟩ = "username=" := by
  refine ⟨rfl, ⟨_, rfl, rfl⟩, ⟨_, rfl, rfl⟩, ?_⟩
  decide

/-- CLAIM C7 (amended). For every endpoint method and every string argument of it that is
the empty string: when the method passes the argument through `stringParam`, the
parameter set handed to `sendRequest` has no entry for the argument's key; when the
method writes the argument into the map literal, the parameter set binds the key to the
empty string. -/
theorem empty_string_argument_spec (e : Endpoint) (a : StringArg) (p : Params)
    (ha : a ∈ e.stringArgs) (hv : a.value = "") (hp : e.call.params? = some p) :
    (a.viaStringParam = true → p.get? a.key = none) ∧
    (a.viaStringParam = false → p.get? a.key = some "") := by
  cases e <;>
    simp only [Endpoint.stringArgs, List.mem_cons, List.mem_singleton, List.not_mem_nil,
      or_false] at ha
  case getCompanyInfo companyID name =>
    by_cases hb : companyID = "" ∧ name = ""
    · simp [Endpoint.call, GetCompanyInfo, hb, Call.params?] at hp
    · simp only [Endpoint.call, GetCompanyInfo, hb, if_false, Call.params?,
        Option.some.injEq] at hp
      subst hp
      rcases ha with rfl | rfl
      · simp only at hv
        simp [hv, stringParam_empty, get?_stringParam_ne]
      · simp only at hv
        simp [hv, stringParam_empty]
        by_cases hc : companyID = ""
        · exact absurd ⟨hc, hv⟩ hb
        · simp [stringParam, hc, Params.get?_set_ne]
  case getFullProfile username urn =>
    by_cases hb : username = "" ∧ urn = ""
    · simp [Endpoint.call, GetFullProfile, hb, Call.params?] at hp
    · simp only [Endpoint.call, GetFullProfile, hb, if_false, Call.params?,
        Option.some.injEq] at hp
      subst hp
      rcases ha with rfl | rfl
      · simp only at hv
        simp [hv, stringParam_empty, get?_stringParam_ne]
      · simp only at hv
        simp [hv, stringParam_empty]
        by_cases hc : username = ""
        · exact absurd ⟨hc, hv⟩ hb
        · simp [stringParam, hc, Params.get?_set_ne]
  all_goals
    simp only [Endpoint.call, CompanyNameLookup, GetSimilarCompanies, GetCompanyEmployeesData,
      GetCompanyJobs, GetCompanyAffiliatedPages, GetCompanyPosts, GetCompanyID,
      GetCompanyDetailsV2, GetProfileOverview, GetProfileDetails, GetContactInfo,
      GetFullExperience, GetCertifications, GetEducation, GetSkills, GetSocialMatrix,
      GetRecommendations, GetSimilarProfiles, GetProfileAbout, GetProfileReactions,
      GetProfileInterests, GetProfileServices, GetProfileURN, GetProfilePostedJobs,
      GetAllComments, GetCommentLikes, GetFeaturedPosts, GetAllPosts, GetPostInfo,
      GetPostComments, GetPostLikes, SearchJobs, GetJobDetails, GetSimilarJobs,
      GetPeopleAlsoViewedJobs, GetJobDetailsV2, SearchJobsV2, GetHiringTeam, Call.params?,
      Option.some.injEq] at hp
    subst hp
  all_goals
    rcases ha with rfl | rfl | rfl | rfl | rfl <;>
    · simp only at hv
      simp [hv, stringParam_empty, get?_stringParam_ne, get?_intParam_ne, get?_sliceParam_ne,
        get?_boolParam_ne, Params.get?_singleton, Params.get?_singleton_ne]

/-- Witness of `empty_string_argument_spec`: `GetAllComments("", "")` sends no `cursor`
key, and it sends `urn` bound to the empty string. -/
theorem empty_string_argument_spec_witness :
    (Endpoint.getAllComments "" "").call.params? = some ⟨[("urn", "")]⟩ ∧
    ((⟨[("urn", "")]⟩ : Params).get? "cursor" = none) ∧
    ((⟨[("urn", "")]⟩ : Params).get? "urn" = some "") :=
  ⟨rfl,
   (empty_string_argument_spec (.getAllComments "" "") ⟨"cursor", "", true⟩ ⟨[("urn", "")]⟩
      (by simp [Endpoint.stringArgs]) rfl rfl).1 rfl,
   (empty_string_argument_spec (.getAllComments "" "") ⟨"urn", "", false⟩ ⟨[("urn", "")]⟩
      (by simp [Endpoint.stringArgs]) rfl rfl).2 rfl⟩

/-! ## The retry loop -/

theorem wrap64_of_range (x : Int) (h1 : minInt64 ≤ x) (h2 : x ≤ maxInt64) : wrap64 x = x := by
  unfold wrap64
  unfold minInt64 at h1
  unfold maxInt64 at h2
  rw [Int.emod_eq_of_lt (by omega) (by omega)]
  omega

theorem dispatches_append (l1 l2 : List Event) :
    dispatches (l1 ++ l2) = dispatches l1 + dispatches l2 := by
  induction l1 with
  | nil => simp [dispatches]
  | cons ev rest ih =>
    cases ev with
    | dispatch req =>
      simp [dispatches, ih]
      omega
    | sleep d => simp [dispatches, ih]

theorem sleeps_append (l1 l2 : List Event) : sleeps (l1 ++ l2) = sleeps l1 ++ sleeps l2 := by
  induction l1 with
  | nil => simp [sleeps]
  | cons ev rest ih =>
    cases ev <;> simp [sleeps, ih]

theorem dispatches_retryEvents (c : Client) (req : Request) (start n : Nat) :
    dispatches (c.retryEvents req start n) = n := by
  induction n generalizing start with
  | zero => rfl
  | succ n ih => simp [Client.retryEvents, dispatches, ih]

theorem sleeps_retryEvents (c : Client) (req : Request) (start n : Nat) :
    sleeps (c.retryEvents req start n) =
      (List.range n).map (fun k => c.backoff ((start + k : Nat) : Int)) := by
  induction n generalizing start with
  | zero => rfl
  | succ n ih =>
    simp only [Client.retryEvents, sleeps, ih, List.range_succ_eq_map, List.map_cons,
      List.map_map]
    simp only [Nat.add_zero, List.cons.injEq, true_and]
    apply List.map_congr_left
    intro k _
    simp only [Function.comp]
    congr 2
    omega

/-- Retried attempts: while the observations are retryable failures and attempts remain,
the loop dispatches, sleeps and moves to the next attempt. -/
theorem attemptLoop_retry (c : Client) (req : Request) (unmarshal : Unmarshal)
    (env : Nat → Attempt) (n : Nat) :
    ∀ (fuel a : Nat) (lastErr : Option GoError) (trace : List Event),
      (∀ k, k < n → (env (a + k)).retryable = true) →
      ((a + n : Nat) : Int) ≤ c.maxRetries →
      ∃ lastErr1, c.attemptLoop req unmarshal env (fuel + n) (a : Int) lastErr trace =
        c.attemptLoop req unmarshal env fuel ((a + n : Nat) : Int) lastErr1
          (trace ++ c.retryEvents req a n) := by
  induction n with
  | zero =>
    intro fuel a lastErr trace _ _
    exact ⟨lastErr, by simp [Client.retryEvents]⟩
  | succ n ih =>
    intro fuel a lastErr trace hretry hle
    have h0 : (env a).retryable = true := by simpa using hretry 0 (by omega)
    have hlt : (a : Int) < c.maxRetries := by push_cast at hle; omega
    have hrest : ∀ k, k < n → (env (a + 1 + k)).retryable = true := by
      intro k hk
      have := hretry (k + 1) (by omega)
      rwa [show a + (k + 1) = a + 1 + k by omega] at this
    have hle1 : ((a + 1 + n : Nat) : Int) ≤ c.maxRetries := by push_cast at hle ⊢; omega
    have hfuel : fuel + (n + 1) = (fuel + n) + 1 := by omega
    have hcast : ((a : Int) + 1) = ((a + 1 : Nat) : Int) := by push_cast; rfl
    have hidx : ((a + 1 + n : Nat) : Int) = ((a + (n + 1) : Nat) : Int) := by
      push_cast; omega
    rw [hfuel]
    cases hE : env a with
    | ctxDone err => simp [hE, Attempt.retryable] at h0
    | newRequestFails err => simp [hE, Attempt.retryable] at h0
    | doFails err =>
      obtain ⟨le1, hih⟩ := ih fuel (a + 1) (some (.plain err))
        (trace ++ [.dispatch req, .sleep (c.backoff a)]) hrest hle1
      refine ⟨le1, ?_⟩
      simp only [Client.attemptLoop, le_of_lt hlt, hlt, if_true, Int.toNat_ofNat, hE, hcast]
      rw [hih, hidx]
      simp [Client.retryEvents]
    | readFails statusCode err =>
      obtain ⟨le1, hih⟩ := ih fuel (a + 1) (some (.plain err))
        (trace ++ [.dispatch req, .sleep (c.backoff a)]) hrest hle1
      refine ⟨le1, ?_⟩
      simp only [Client.attemptLoop, le_of_lt hlt, hlt, if_true, Int.toNat_ofNat, hE, hcast]
      rw [hih, hidx]
      simp [Client.retryEvents]
    | response statusCode body =>
      have hs : statusCode < 200 ∨ statusCode ≥ 300 := by
        simpa [hE, Attempt.retryable] using h0
      obtain ⟨le1, hih⟩ := ih fuel (a + 1) (some (.apiStatus statusCode body))
        (trace ++ [.dispatch req, .sleep (c.backoff a)]) hrest hle1
      refine ⟨le1, ?_⟩
      simp only [Client.attemptLoop, le_of_lt hlt, hlt, if_true, Int.toNat_ofNat, hE, hcast,
        hs]
      rw [hih, hidx]
      simp [Client.retryEvents]

/-- The loop always returns: the bound on the iterations is never reached. -/
theorem attemptLoop_returns (c : Client) (req : Request) (unmarshal : Unmarshal)
    (env : Nat → Attempt) (fuel : Nat) :
    ∀ (attempt : Int) (lastErr : Option GoError) (trace : List Event),
      (c.maxRetries + 1 - attempt).toNat < fuel →
      ∃ out, c.attemptLoop req unmarshal env fuel attempt lastErr trace = some out := by
  induction fuel with
  | zero => intro attempt lastErr trace h; omega
  | succ fuel ih =>
    intro attempt lastErr trace h
    simp only [Client.attemptLoop]
    split
    · rename_i hle
      have hnext : (c.maxRetries + 1 - (attempt + 1)).toNat < fuel := by omega
      cases env attempt.toNat with
      | ctxDone err => exact ⟨_, rfl⟩
      | newRequestFails err => exact ⟨_, rfl⟩
      | doFails err =>
        simp only
        split
        · exact ih _ _ _ hnext
        · exact ⟨_, rfl⟩
      | readFails statusCode err =>
        simp only
        split
        · exact ih _ _ _ hnext
        · exact ⟨_, rfl⟩
      | response statusCode body =>
        simp only
        split
        · split
          · exact ih _ _ _ hnext
          · exact ⟨_, rfl⟩
        · cases unmarshal body <;> exact ⟨_, rfl⟩
    · exact ⟨_, rfl⟩

/-- Source `sendRequest` returns on every client, request and environment. -/
theorem sendRequest_returns (c : Client) (method endpoint : String) (params : Params)
    (unmarshal : Unmarshal) (env : Nat → Attempt) :
    ∃ out, c.sendRequest method endpoint params unmarshal env = some out := by
  unfold Client.sendRequest
  exact attemptLoop_returns c _ unmarshal env _ 0 none [] (by omega)

/-- The run of a client with `maxRetries = R ≥ 0` whose first `R` observations are
retryable failures reaches attempt `R` with the events of `R` retried attempts. -/
theorem sendRequest_reaches (c : Client) (method endpoint : String) (params : Params)
    (unmarshal : Unmarshal) (env : Nat → Attempt) (n : Nat) (fuel : Nat)
    (hfuel : (c.maxRetries + 1).toNat + 1 = fuel + n)
    (hn : (n : Int) ≤ c.maxRetries)
    (hretry : ∀ k, k < n → (env k).retryable = true) :
    ∃ lastErr1, c.sendRequest method endpoint params unmarshal env =
      c.attemptLoop (c.buildRequest method endpoint params) unmarshal env fuel
        (n : Int) lastErr1 (c.retryEvents (c.buildRequest method endpoint params) 0 n) := by
  obtain ⟨le1, h⟩ := attemptLoop_retry c (c.buildRequest method endpoint params)
    unmarshal env n fuel 0 none [] (by simpa using hretry) (by simpa using hn)
  refine ⟨le1, ?_⟩
  unfold Client.sendRequest
  rw [hfuel]
  simpa using h

/-! ## Claim C1: transport errors on every attempt -/

theorem backoff_exact (c : Client) (R k : Nat) (hk : k < R) (hd : 0 ≤ c.retryDelay)
    (hmul : c.retryDelay * R ≤ maxInt64) (hR : (R : Int) ≤ maxInt64) :
    c.backoff (k : Int) = c.retryDelay * ((k : Int) + 1) := by
  have hk1 : ((k : Int) + 1) ≤ R := by omega
  have h1 : wrap64 ((k : Int) + 1) = (k : Int) + 1 :=
    wrap64_of_range _ (by unfold minInt64; omega) (by omega)
  have h2 : c.retryDelay * ((k : Int) + 1) ≤ c.retryDelay * R :=
    Int.mul_le_mul_of_nonneg_left hk1 hd
  have h3 : 0 ≤ c.retryDelay * ((k : Int) + 1) := Int.mul_nonneg hd (by omega)
  unfold Client.backoff
  rw [h1]
  exact wrap64_of_range _ (by unfold minInt64; omega) (by omega)

theorem linear_delays_sorted (d : Int) (hd : 0 ≤ d) (R : Nat) :
    ((List.range R).map (fun k : Nat => d * ((k : Int) + 1))).Pairwise (fun a b => a ≤ b) := by
  rw [List.pairwise_map]
  refine (List.pairwise_lt_range R).imp ?_
  intro a b hab
  exact Int.mul_le_mul_of_nonneg_left (by omega) hd

/-- CLAIM C1 (counterexample). With `retryDelay` of minus one second and `maxRetries = 2`,
an endpoint that fails with a transport error on every attempt is tried three times, and
the sleeps are -1s then -2s: the delays decrease. -/
theorem negative_delay_backoff_decreases :
    ∃ out, (Client.mk "key" "https://linkdapi.com" 2 (-1000000000) 30000000000).sendRequest
        "GET" "api/v1/profile/overview" ⟨[("username", "u")]⟩
        (fun _ => .error "unused") (fun _ => .doFails "connection refused") = some out ∧
      dispatches out.trace = 3 ∧
      sleeps out.trace = [-1000000000, -2000000000] ∧
      ¬ (sleeps out.trace).Pairwise (fun a b => a ≤ b) := by
  refine ⟨_, rfl, ?_, ?_, ?_⟩ <;>
    simp [Client.attemptLoop, dispatches, sleeps, Client.backoff, wrap64]

/-- CLAIM C1 (amended). For every client with `maxRetries = R ≥ 0` and every request whose
dispatch fails with a transport error on every attempt, `sendRequest` returns, makes
exactly `R + 1` dispatches, sleeps `retryDelay * (k + 1)` in 64-bit arithmetic after the
failed attempt `k` for each `k < R`, ends with a dispatch (no sleep after the final
attempt) and returns a nil result with the wrapped transport error of the last attempt.
When `retryDelay ≥ 0` and `R * retryDelay` fits in 64 bits, the sleeps are exactly
`delay, 2 * delay, ..., R * delay` and non-decreasing. -/
theorem transport_errors_linear_backoff (c : Client) (method endpoint : String)
    (params : Params) (unmarshal : Unmarshal) (env : Nat → Attempt) (R : Nat)
    (hR : c.maxRetries = (R : Int))
    (herr : ∀ k, k ≤ R → ∃ err, env k = .doFails err) :
    ∃ out err, c.sendRequest method endpoint params unmarshal env = some out ∧
      env R = .doFails err ∧
      out.result = none ∧
      out.err = some (.requestFailed (wrap64 ((R : Int) + 1)) err) ∧
      out.trace = c.retryEvents (c.buildRequest method endpoint params) 0 R ++
        [.dispatch (c.buildRequest method endpoint params)] ∧
      dispatches out.trace = R + 1 ∧
      sleeps out.trace = (List.range R).map (fun k : Nat => c.backoff (k : Int)) ∧
      out.trace.getLast? = some (.dispatch (c.buildRequest method endpoint params)) ∧
      (0 ≤ c.retryDelay → c.retryDelay * R ≤ maxInt64 → (R : Int) ≤ maxInt64 →
        sleeps out.trace = (List.range R).map (fun k : Nat => c.retryDelay * ((k : Int) + 1)) ∧
        (sleeps out.trace).Pairwise (fun a b => a ≤ b)) := by
  obtain ⟨err, hE⟩ := herr R le_rfl
  obtain ⟨le1, hreach⟩ := sendRequest_reaches c method endpoint params unmarshal env R 2
    (by rw [hR]; omega) (by rw [hR])
    (fun k hk => by
      obtain ⟨e, he⟩ := herr k (by omega)
      simp [he, Attempt.retryable])
  have hlast : c.attemptLoop (c.buildRequest method endpoint params) unmarshal env 2
      (R : Int) le1 (c.retryEvents (c.buildRequest method endpoint params) 0 R) =
      some ⟨none, some (.requestFailed (wrap64 ((R : Int) + 1)) err),
        c.retryEvents (c.buildRequest method endpoint params) 0 R ++
          [.dispatch (c.buildRequest method endpoint params)]⟩ := by
    simp [Client.attemptLoop, hR, hE]
  have hsl : sleeps (c.retryEvents (c.buildRequest method endpoint params) 0 R ++
      [.dispatch (c.buildRequest method endpoint params)]) =
      (List.range R).map (fun k : Nat => c.backoff (k : Int)) := by
    simp [sleeps_append, sleeps_retryEvents, sleeps]
  refine ⟨_, err, hreach.trans hlast, hE, rfl, rfl, rfl, ?_, hsl, ?_, ?_⟩
  · simp [dispatches_append, dispatches_retryEvents, dispatches]
  · simp
  · intro hd hmul hmax
    have hexact : sleeps (c.retryEvents (c.buildRequest method endpoint params) 0 R ++
        [.dispatch (c.buildRequest method endpoint params)]) =
        (List.range R).map (fun k : Nat => c.retryDelay * ((k : Int) + 1)) := by
      rw [hsl]
      apply List.map_congr_left
      intro k hk
      exact backoff_exact c R k (List.mem_range.mp hk) hd hmul hmax
    exact ⟨hexact, hexact ▸ linear_delays_sorted c.retryDelay hd R⟩

/-- Witness of `transport_errors_linear_backoff`: the default configuration (three
retries, one second) against an endpoint that always refuses the connection. -/
theorem transport_errors_linear_backoff_witness :
    ∃ out err, (Client.mk "key" "https://linkdapi.com" 3 1000000000 30000000000).sendRequest
        "GET" "api/v1/profile/overview" ⟨[("username", "u")]⟩
        (fun _ => .error "unused") (fun _ => .doFails "connection refused") = some out ∧
      out.err = some (.requestFailed 4 err) ∧
      dispatches out.trace = 4 ∧
      sleeps out.trace = [1000000000, 2000000000, 3000000000] := by
  obtain ⟨out, err, h1, _, _, h4, _, h6, _, _, h9⟩ :=
    transport_errors_linear_backoff
      (Client.mk "key" "https://linkdapi.com" 3 1000000000 30000000000)
      "GET" "api/v1/profile/overview" ⟨[("username", "u")]⟩
      (fun _ => .error "unused") (fun _ => .doFails "connection refused") 3 rfl
      (fun k _ => ⟨"connection refused", rfl⟩)
  refine ⟨out, err, h1, ?_, h6, ?_⟩
  · simpa [wrap64] using h4
  · have := (h9 (by decide) (by decide) (by decide)).1
    simpa [List.range_succ] using this

/-! ## Claims C2 and C5: a client with negative `maxRetries` -/

/-- With `maxRetries < 0` the loop body never runs: `sendRequest` dispatches nothing and
returns a nil result with a nil error, whatever the environment. -/
theorem sendRequest_negative_maxRetries (c : Client) (method endpoint : String)
    (params : Params) (unmarshal : Unmarshal) (env : Nat → Attempt)
    (hneg : c.maxRetries < 0) :
    ∃ out, c.sendRequest method endpoint params unmarshal env = some out ∧
      out.result = none ∧ out.err = none ∧ out.trace = [] := by
  refine ⟨⟨none, none, []⟩, ?_, rfl, rfl, rfl⟩
  have h : ¬ (0 : Int) ≤ c.maxRetries := by omega
  simp [Client.sendRequest, Client.attemptLoop, h]

/-- With `maxRetries ≥ 0` and the context done at the first check, `sendRequest` returns
the context's error without a dispatch or a sleep. -/
theorem sendRequest_ctx_done (c : Client) (method endpoint : String)
    (params : Params) (unmarshal : Unmarshal) (env : Nat → Attempt) (err : String)
    (hR : 0 ≤ c.maxRetries) (hdone : env 0 = .ctxDone err) :
    ∃ out, c.sendRequest method endpoint params unmarshal env = some out ∧
      out.result = none ∧ out.err = some (.plain err) ∧ out.trace = [] := by
  refine ⟨⟨none, some (.plain err), []⟩, ?_, rfl, rfl, rfl⟩
  simp [Client.sendRequest, Client.attemptLoop, hR, hdone]

/-- CLAIM C2 (failing input). A client built with `MaxRetries: -1` whose context is already
cancelled: `sendRequest` makes no dispatch and no sleep, but it returns a nil error, not
the context's cancellation error. -/
theorem ctx_done_negative_maxRetries_returns_nil_error :
    ∃ out, (Client.mk "key" "https://linkdapi.com" (-1) 1000000000 30000000000).sendRequest
        "GET" "api/v1/profile/overview" ⟨[("username", "u")]⟩
        (fun _ => .error "unused") (fun _ => .ctxDone "context canceled") = some out ∧
      out.result = none ∧ out.err = none ∧ dispatches out.trace = 0 ∧
      sleeps out.trace = [] := by
  refine ⟨_, rfl, ?_, ?_, ?_, ?_⟩ <;> simp [Client.attemptLoop, dispatches, sleeps]

/-- CLAIM C5 (failing input). A client built with `MaxRetries: -1` against a server that
would answer 200 with a JSON object: `sendRequest` makes no dispatch and returns a nil
result together with a nil error. -/
theorem negative_maxRetries_returns_nil_nil :
    ∃ out, (Client.mk "key" "https://linkdapi.com" (-1) 1000000000 30000000000).sendRequest
        "GET" "api/v1/profile/overview" ⟨[("username", "u")]⟩
        (fun _ => .ok (some [("success", .bool true)]))
        (fun _ => .response 200 "\x7b\x7d") = some out ∧
      out.result = none ∧ out.err = none ∧ dispatches out.trace = 0 := by
  refine ⟨_, rfl, ?_, ?_, ?_⟩ <;> simp [Client.attemptLoop, dispatches]

/-- Inside the loop, while the counter has not passed `maxRetries`, every return carries
either a result with a nil error or a nil result with an error, provided the decoder never
leaves the nil map without an error. -/
theorem attemptLoop_result_or_error (c : Client) (req : Request) (unmarshal : Unmarshal)
    (env : Nat → Attempt) (hdec : ∀ body, unmarshal body ≠ .ok none) (fuel : Nat) :
    ∀ (attempt : Int) (lastErr : Option GoError) (trace : List Event) (out : Outcome),
      attempt ≤ c.maxRetries →
      c.attemptLoop req unmarshal env fuel attempt lastErr trace = some out →
      (out.result ≠ none ∧ out.err = none) ∨ (out.result = none ∧ out.err ≠ none) := by
  induction fuel with
  | zero => intro attempt lastErr trace out _ h; simp [Client.attemptLoop] at h
  | succ fuel ih =>
    intro attempt lastErr trace out hle h
    simp only [Client.attemptLoop, hle, if_true] at h
    cases hE : env attempt.toNat with
    | ctxDone err =>
      simp only [hE, Option.some.injEq] at h
      subst h
      exact Or.inr ⟨rfl, by simp⟩
    | newRequestFails err =>
      simp only [hE, Option.some.injEq] at h
      subst h
      exact Or.inr ⟨rfl, by simp⟩
    | doFails err =>
      simp only [hE] at h
      split at h
      · exact ih _ _ _ _ (by omega) h
      · simp only [Option.some.injEq] at h
        subst h
        exact Or.inr ⟨rfl, by simp⟩
    | readFails statusCode err =>
      simp only [hE] at h
      split at h
      · exact ih _ _ _ _ (by omega) h
      · simp only [Option.some.injEq] at h
        subst h
        exact Or.inr ⟨rfl, by simp⟩
    | response statusCode body =>
      simp only [hE] at h
      split at h
      · split at h
        · exact ih _ _ _ _ (by omega) h
        · simp only [Option.some.injEq] at h
          subst h
          exact Or.inr ⟨rfl, by simp⟩
      · cases hu : unmarshal body with
        | error e =>
          simp only [hu, Option.some.injEq] at h
          subst h
          exact Or.inr ⟨rfl, by simp⟩
        | ok r =>
          simp only [hu, Option.some.injEq] at h
          subst h
          refine Or.inl ⟨?_, rfl⟩
          intro hr
          simp only at hr
          exact hdec body (by rw [hu, hr])

/-- For `maxRetries ≥ 0` and a decoder that never leaves the nil map without an error,
`sendRequest` returns either a result with a nil error or a nil result with an error. -/
theorem sendRequest_result_or_error (c : Client) (method endpoint : String)
    (params : Params) (unmarshal : Unmarshal) (env : Nat → Attempt)
    (hR : 0 ≤ c.maxRetries) (hdec : ∀ body, unmarshal body ≠ .ok none) :
    ∃ out, c.sendRequest method endpoint params unmarshal env = some out ∧
      ((out.result ≠ none ∧ out.err = none) ∨ (out.result = none ∧ out.err ≠ none)) := by
  obtain ⟨out, h⟩ := sendRequest_returns c method endpoint params unmarshal env
  exact ⟨out, h, attemptLoop_result_or_error c _ unmarshal env hdec _ 0 none [] out hR h⟩

/-! ## Claim C3: a 2xx response and the decoder -/

/-- CLAIM C3 (counterexample). Three retries configured, the first response is 200 with
the body `null`. That body is not a JSON object, yet `json.Unmarshal` accepts it and leaves
the map nil: `sendRequest` returns after one dispatch with a nil result and a nil error,
not with a decode error. -/
theorem null_body_returns_no_decode_error :
    jsonObjectStart "null" = false ∧
    ∃ out, (Client.mk "key" "https://linkdapi.com" 3 1000000000 30000000000).sendRequest
        "GET" "api/v1/profile/overview" ⟨[("username", "u")]⟩
        (unmarshalNull (fun _ => .error "unused")) (fun _ => .response 200 "null") =
          some out ∧
      out.result = none ∧ out.err = none ∧
      (∀ cause, out.err ≠ some (.parseJSON cause)) ∧
      dispatches out.trace = 1 ∧ sleeps out.trace = [] := by
  refine ⟨by decide, _, rfl, ?_, ?_, ?_, ?_, ?_⟩ <;>
    simp [Client.attemptLoop, unmarshalNull, dispatches, sleeps]

/-- CLAIM C3 (amended). For every client and every attempt `n` that takes place
(`n ≤ maxRetries`, the earlier attempts being retried failures) whose response has a status
code in [200,300): when `json.Unmarshal` rejects the body, `sendRequest` returns a nil
result with the decode error at that attempt; when `json.Unmarshal` accepts the body, it
returns what the decoder left in the map (nil for the body `null`) with a nil error. In
both cases the trace ends with the dispatch of attempt `n`, the only sleeps are those of
the `n` earlier attempts, and when `n = 0` the trace is that single dispatch. -/
theorem decode_error_returns_immediately (c : Client) (method endpoint : String)
    (params : Params) (unmarshal : Unmarshal) (env : Nat → Attempt) (n : Nat)
    (statusCode : Int) (body : String)
    (hn : (n : Int) ≤ c.maxRetries)
    (hretry : ∀ k, k < n → (env k).retryable = true)
    (hresp : env n = .response statusCode body)
    (hlo : 200 ≤ statusCode) (hhi : statusCode < 300) :
    (∀ err, unmarshal body = .error err →
      ∃ out, c.sendRequest method endpoint params unmarshal env = some out ∧
        out.result = none ∧
        out.err = some (.parseJSON err) ∧
        out.trace = c.retryEvents (c.buildRequest method endpoint params) 0 n ++
          [.dispatch (c.buildRequest method endpoint params)] ∧
        dispatches out.trace = n + 1 ∧
        sleeps out.trace = (List.range n).map (fun k : Nat => c.backoff (k : Int)) ∧
        out.trace.getLast? = some (.dispatch (c.buildRequest method endpoint params)) ∧
        (n = 0 → out.trace = [.dispatch (c.buildRequest method endpoint params)] ∧
          dispatches out.trace = 1 ∧ sleeps out.trace = [])) ∧
    (∀ result, unmarshal body = .ok result →
      ∃ out, c.sendRequest method endpoint params unmarshal env = some out ∧
        out.result = result ∧
        out.err = none ∧
        out.trace = c.retryEvents (c.buildRequest method endpoint params) 0 n ++
          [.dispatch (c.buildRequest method endpoint params)] ∧
        dispatches out.trace = n + 1 ∧
        sleeps out.trace = (List.range n).map (fun k : Nat => c.backoff (k : Int)) ∧
        out.trace.getLast? = some (.dispatch (c.buildRequest method endpoint params)) ∧
        (n = 0 → out.trace = [.dispatch (c.buildRequest method endpoint params)] ∧
          dispatches out.trace = 1 ∧ sleeps out.trace = [])) := by
  obtain ⟨fuel, hfuel⟩ : ∃ fuel, (c.maxRetries + 1).toNat + 1 = (fuel + 1) + n :=
    ⟨(c.maxRetries + 1).toNat - n, by omega⟩
  obtain ⟨le1, hreach⟩ := sendRequest_reaches c method endpoint params unmarshal env n
    (fuel + 1) hfuel hn hretry
  have hs : ¬ (statusCode < 200 ∨ statusCode ≥ 300) := by omega
  constructor
  · intro err hbad
    have hlast : c.attemptLoop (c.buildRequest method endpoint params) unmarshal env
        (fuel + 1) (n : Int) le1 (c.retryEvents (c.buildRequest method endpoint params) 0 n) =
        some ⟨none, some (.parseJSON err),
          c.retryEvents (c.buildRequest method endpoint params) 0 n ++
            [.dispatch (c.buildRequest method endpoint params)]⟩ := by
      simp only [Client.attemptLoop, hn, if_true, Int.toNat_ofNat, hresp, hs, if_false, hbad]
    refine ⟨_, hreach.trans hlast, rfl, rfl, rfl, ?_, ?_, ?_, ?_⟩
    · simp [dispatches_append, dispatches_retryEvents, dispatches]
    · simp [sleeps_append, sleeps_retryEvents, sleeps]
    · simp
    · intro h0
      subst h0
      simp [Client.retryEvents, dispatches, sleeps]
  · intro result hgood
    have hlast : c.attemptLoop (c.buildRequest method endpoint params) unmarshal env
        (fuel + 1) (n : Int) le1 (c.retryEvents (c.buildRequest method endpoint params) 0 n) =
        some ⟨result, none,
          c.retryEvents (c.buildRequest method endpoint params) 0 n ++
            [.dispatch (c.buildRequest method endpoint params)]⟩ := by
      simp only [Client.attemptLoop, hn, if_true, Int.toNat_ofNat, hresp, hs, if_false, hgood]
    refine ⟨_, hreach.trans hlast, rfl, rfl, rfl, ?_, ?_, ?_, ?_⟩
    · simp [dispatches_append, dispatches_retryEvents, dispatches]
    · simp [sleeps_append, sleeps_retryEvents, sleeps]
    · simp
    · intro h0
      subst h0
      simp [Client.retryEvents, dispatches, sleeps]

/-- Witness of `decode_error_returns_immediately`: three retries configured, the first
response is 200 with a body that is not JSON; one dispatch, no sleep, a decode error. -/
theorem decode_error_returns_immediately_witness :
    ∃ out, (Client.mk "key" "https://linkdapi.com" 3 1000000000 30000000000).sendRequest
        "GET" "api/v1/profile/overview" ⟨[("username", "u")]⟩
        (unmarshalNull (fun _ => .error "invalid character")) (fun _ => .response 200 "<html>") =
          some out ∧
      out.err = some (.parseJSON "invalid character") ∧
      dispatches out.trace = 1 ∧ sleeps out.trace = [] := by
  obtain ⟨out, h1, _, h3, _, _, _, _, h8⟩ :=
    (decode_error_returns_immediately
      (Client.mk "key" "https://linkdapi.com" 3 1000000000 30000000000)
      "GET" "api/v1/profile/overview" ⟨[("username", "u")]⟩
      (unmarshalNull (fun _ => .error "invalid character")) (fun _ => .response 200 "<html>")
      0 200 "<html>" (by decide) (fun k hk => absurd hk (by omega))
      rfl (by decide) (by decide)).1 "invalid character" (by simp [unmarshalNull])
  exact ⟨out, h1, h3, (h8 rfl).2.1, (h8 rfl).2.2⟩

/-! ## Claim C4: status codes outside [200,300) on every attempt -/

/-- CLAIM C4. For every client with `maxRetries = R ≥ 0` and every run in which the
`R + 1` responses all have a status code below 200 or at least 300, `sendRequest` retries
each of them, makes exactly `R + 1` dispatches with a sleep after each but the last, and
returns a nil result with the error built from the status code and the body of the last
response (attempt `R`). A response with a status code in [200,300) is not retried: on the
first attempt it ends the run after one dispatch, with a result or a decode error. -/
theorem status_errors_return_last_response (c : Client) (method endpoint : String)
    (params : Params) (unmarshal : Unmarshal) (env : Nat → Attempt) (R : Nat)
    (hR : c.maxRetries = (R : Int))
    (hstatus : ∀ k, k ≤ R → ∃ statusCode body,
      env k = .response statusCode body ∧ (statusCode < 200 ∨ statusCode ≥ 300)) :
    (∃ out statusCode body, c.sendRequest method endpoint params unmarshal env = some out ∧
      env R = .response statusCode body ∧
      out.result = none ∧
      out.err = some (.apiStatus statusCode body) ∧
      (∀ e, out.err = some e → e.Error =
        "API request failed with status " ++ toString statusCode ++ ": " ++ body) ∧
      out.trace = c.retryEvents (c.buildRequest method endpoint params) 0 R ++
        [.dispatch (c.buildRequest method endpoint params)] ∧
      dispatches out.trace = R + 1 ∧
      sleeps out.trace = (List.range R).map (fun k : Nat => c.backoff (k : Int))) ∧
    (∀ (env1 : Nat → Attempt) (statusCode : Int) (body : String),
      env1 0 = .response statusCode body → 200 ≤ statusCode → statusCode < 300 →
      ∃ out, c.sendRequest method endpoint params unmarshal env1 = some out ∧
        out.trace = [.dispatch (c.buildRequest method endpoint params)] ∧
        ((∃ r, unmarshal body = .ok r ∧ out.result = r ∧ out.err = none) ∨
         (∃ e, unmarshal body = .error e ∧ out.result = none ∧
           out.err = some (.parseJSON e)))) := by
  constructor
  · obtain ⟨statusCode, body, hE, hs⟩ := hstatus R le_rfl
    obtain ⟨le1, hreach⟩ := sendRequest_reaches c method endpoint params unmarshal env R 2
      (by rw [hR]; omega) (by rw [hR])
      (fun k hk => by
        obtain ⟨s, b, he, hsb⟩ := hstatus k (by omega)
        simp [he, Attempt.retryable, hsb])
    have hlast : c.attemptLoop (c.buildRequest method endpoint params) unmarshal env 2
        (R : Int) le1 (c.retryEvents (c.buildRequest method endpoint params) 0 R) =
        some ⟨none, some (.apiStatus statusCode body),
          c.retryEvents (c.buildRequest method endpoint params) 0 R ++
            [.dispatch (c.buildRequest method endpoint params)]⟩ := by
      simp [Client.attemptLoop, hR, hE, hs]
    refine ⟨_, statusCode, body, hreach.trans hlast, hE, rfl, rfl, ?_, rfl, ?_, ?_⟩
    · intro e he
      simp only [Option.some.injEq] at he
      subst he
      rfl
    · simp [dispatches_append, dispatches_retryEvents, dispatches]
    · simp [sleeps_append, sleeps_retryEvents, sleeps]
  · intro env1 statusCode body hE hlo hhi
    have hs : ¬ (statusCode < 200 ∨ statusCode ≥ 300) := by omega
    have h0 : (0 : Int) ≤ c.maxRetries := by rw [hR]; omega
    cases hu : unmarshal body with
    | error e =>
      refine ⟨⟨none, some (.parseJSON e), [.dispatch (c.buildRequest method endpoint params)]⟩,
        ?_, rfl, Or.inr ⟨e, rfl, rfl, rfl⟩⟩
      simp [Client.sendRequest, Client.attemptLoop, h0, hE, hs, hu]
    | ok r =>
      refine ⟨⟨r, none, [.dispatch (c.buildRequest method endpoint params)]⟩,
        ?_, rfl, Or.inl ⟨r, rfl, rfl, rfl⟩⟩
      simp [Client.sendRequest, Client.attemptLoop, h0, hE, hs, hu]

/-- Witness of `status_errors_return_last_response`: two retries configured, the server
answers 500, 502 and 503; the error returned is the one of the 503. -/
theorem status_errors_return_last_response_witness :
    ∃ out, (Client.mk "key" "https://linkdapi.com" 2 1000000000 30000000000).sendRequest
        "GET" "api/v1/profile/overview" ⟨[("username", "u")]⟩
        (fun _ => .error "unused")
        (fun k => if k = 0 then .response 500 "first" else if k = 1 then .response 502 "second"
          else .response 503 "third") = some out ∧
      out.err = some (.apiStatus 503 "third") ∧ dispatches out.trace = 3 := by
  obtain ⟨out, statusCode, body, h1, h2, _, h4, _, _, h7, _⟩ :=
    (status_errors_return_last_response
      (Client.mk "key" "https://linkdapi.com" 2 1000000000 30000000000)
      "GET" "api/v1/profile/overview" ⟨[("username", "u")]⟩
      (fun _ => .error "unused")
      (fun k => if k = 0 then .response 500 "first" else if k = 1 then .response 502 "second"
        else .response 503 "third") 2 rfl
      (fun k _ => by
        by_cases h0 : k = 0
        · exact ⟨500, "first", by simp [h0], by decide⟩
        · by_cases h1 : k = 1
          · exact ⟨502, "second", by simp [h1], by decide⟩
          · exact ⟨503, "third", by simp [h0, h1], by decide⟩)).1
  simp only [show ¬ (2 = 0) by decide, show ¬ (2 = 1) by decide, if_false,
    Attempt.response.injEq] at h2
  refine ⟨out, h1, ?_, h7⟩
  rw [h4, ← h2.1, ← h2.2]

/-! ## Claim C14: configuration defaults -/

/-- A nil `Config` gives the client built from `DefaultConfig()`: base URL
`https://linkdapi.com`, timeout 30s, three retries, retry delay 1s, background context. -/
theorem NewClientWithConfig_nil (apiKey : String) :
    NewClientWithConfig apiKey none = NewClientWithConfig apiKey (some DefaultConfig) ∧
    NewClientWithConfig apiKey none = NewClient apiKey ∧
    (NewClientWithConfig apiKey none).baseURL = "https://linkdapi.com" ∧
    (NewClientWithConfig apiKey none).timeout = 30 * second ∧
    (NewClientWithConfig apiKey none).httpClientTimeout = 30 * second ∧
    (NewClientWithConfig apiKey none).maxRetries = 3 ∧
    (NewClientWithConfig apiKey none).retryDelay = 1 * second ∧
    (NewClientWithConfig apiKey none).ctx = .background := by
  refine ⟨rfl, rfl, ?_, rfl, rfl, rfl, rfl, rfl⟩
  show trimRightSlash "https://linkdapi.com" = "https://linkdapi.com"
  decide

/-- A non-nil `Config` is copied field by field: only a nil `Context` is replaced (by the
background context), and only the trailing `/` of the base URL are dropped. -/
theorem NewClientWithConfig_some (apiKey : String) (cfg : Config) :
    (NewClientWithConfig apiKey (some cfg)).apiKey = apiKey ∧
    (NewClientWithConfig apiKey (some cfg)).baseURL = trimRightSlash cfg.BaseURL ∧
    (NewClientWithConfig apiKey (some cfg)).timeout = cfg.Timeout ∧
    (NewClientWithConfig apiKey (some cfg)).httpClientTimeout = cfg.Timeout ∧
    (NewClientWithConfig apiKey (some cfg)).maxRetries = cfg.MaxRetries ∧
    (NewClientWithConfig apiKey (some cfg)).retryDelay = cfg.RetryDelay ∧
    (cfg.Context = none → (NewClientWithConfig apiKey (some cfg)).ctx = .background) ∧
    (∀ ctx, cfg.Context = some ctx → (NewClientWithConfig apiKey (some cfg)).ctx = ctx) := by
  refine ⟨rfl, rfl, rfl, rfl, rfl, rfl, ?_, ?_⟩
  · intro h
    simp [NewClientWithConfig, h]
  · intro ctx h
    simp [NewClientWithConfig, h]

/-- CLAIM C14 (failing input). The configuration of the documentation example of
`NewClientWithConfig`, `Config` with only `Timeout: 60s` and `MaxRetries: 5` set: the
client's base URL is the empty string and its retry delay is zero, not the documented
defaults `https://linkdapi.com` and 1s, and the request URL of `GetProfileOverview` has no
host. A `Config` with a zero `Timeout` gives a client with timeout zero, not 30s. Only the
nil `Context` is replaced by its default. -/
theorem unset_config_fields_stay_zero :
    (NewClientWithConfig "key" (some ⟨"", 60 * second, 5, 0, none⟩)).baseURL = "" ∧
    (NewClientWithConfig "key" (some ⟨"", 60 * second, 5, 0, none⟩)).baseURL ≠
      DefaultConfig.BaseURL ∧
    (NewClientWithConfig "key" (some ⟨"", 60 * second, 5, 0, none⟩)).retryDelay = 0 ∧
    (NewClientWithConfig "key" (some ⟨"", 60 * second, 5, 0, none⟩)).retryDelay ≠
      DefaultConfig.RetryDelay ∧
    (NewClientWithConfig "key" (some ⟨"", 60 * second, 5, 0, none⟩)).ctx = .background ∧
    (NewClientWithConfig "key" (some ⟨"", 60 * second, 5, 0, none⟩)).toClient.requestURL
      "api/v1/profile/overview" ⟨[("username", "u")]⟩ =
        "/api/v1/profile/overview?username=u" ∧
    (NewClientWithConfig "key" (some ⟨"https://linkdapi.com", 0, 3, 1 * second, none⟩)).timeout
      = 0 ∧
    (NewClientWithConfig "key"
      (some ⟨"https://linkdapi.com", 0, 3, 1 * second, none⟩)).httpClientTimeout ≠
        DefaultConfig.Timeout := by
  refine ⟨?_, ?_, ?_, ?_, ?_, ?_, ?_, ?_⟩ <;> decide

/-! ## Claim C16: the `Count` field of `JobSearchV2Params` -/

/-- CLAIM C16 (failing input). Two `JobSearchV2Params` values that differ only in `Count`
(25 and 50) give the same call of `sendRequest`: `SearchJobsV2` never reads `Count`, for
any parameters, and its parameter set has no `count` key, while `GetProfilePostedJobs`
and `GetPostComments` send their count under the key `count`. -/
theorem SearchJobsV2_drops_Count :
    SearchJobsV2 ⟨"engineer", 0, 25, "", "", [], [], [], "", [], [], [], [], [], [], [],
        none, none, none, none⟩ =
      SearchJobsV2 ⟨"engineer", 0, 50, "", "", [], [], [], "", [], [], [], [], [], [], [],
        none, none, none, none⟩ ∧
    (SearchJobsV2 ⟨"engineer", 0, 50, "", "", [], [], [], "", [], [], [], [], [], [], [],
        none, none, none, none⟩).params? = some ⟨[("keyword", "engineer"), ("start", "0")]⟩ ∧
    (∀ (p : JobSearchV2Params) (count : Int),
      SearchJobsV2 { p with Count := count } = SearchJobsV2 p) ∧
    (∀ (p : JobSearchV2Params) (q : Params),
      (SearchJobsV2 p).params? = some q → q.get? "count" = none) ∧
    (∀ (profileUrn : String) (start count : Int) (q : Params),
      (GetProfilePostedJobs profileUrn start count).params? = some q →
        q.get? "count" = some (toString count)) ∧
    (∀ (urn cursor : String) (start count : Int) (q : Params),
      (GetPostComments urn start count cursor).params? = some q →
        q.get? "count" = some (toString count)) := by
  refine ⟨rfl, by decide, fun p count => rfl, ?_, ?_, ?_⟩
  · intro p q h
    simp only [SearchJobsV2, Call.params?, Option.some.injEq] at h
    subst h
    simp [get?_boolParam_ne, get?_sliceParam_ne, get?_stringParam_ne, get?_intParam_ne]
  · intro profileUrn start count q h
    simp only [GetProfilePostedJobs, Call.params?, Option.some.injEq] at h
    subst h
    simp [intParam]
  · intro urn cursor start count q h
    simp only [GetPostComments, Call.params?, Option.some.injEq] at h
    subst h
    simp [get?_stringParam_ne, intParam]

/-! ## Claim C15: the growth of the retry delay -/

/-- The sleep after a failed attempt grows by one `retryDelay` per attempt, as long as the
products stay in the 64-bit range: the growth is linear. -/
theorem backoff_step (c : Client) (k : Nat) (hd : 0 ≤ c.retryDelay)
    (hmul : c.retryDelay * ((k : Int) + 2) ≤ maxInt64) (hk : (k : Int) + 2 ≤ maxInt64) :
    c.backoff ((k : Int) + 1) = c.backoff (k : Int) + c.retryDelay := by
  have h0 := backoff_exact c (k + 2) k (by omega) hd (by push_cast; exact hmul)
    (by push_cast; exact hk)
  have h1 := backoff_exact c (k + 2) (k + 1) (by omega) hd (by push_cast; exact hmul)
    (by push_cast; exact hk)
  push_cast at h1
  rw [h0, h1]
  ring

/-- CLAIM C15 (failing input). The default configuration (three retries, retry delay 1s)
against an endpoint that always fails with a transport error: the sleeps are 1s, 2s and
3s. They grow by a constant difference; no constant factor greater than one takes 1s to 2s
and 2s to 3s, so the delay does not grow exponentially. -/
theorem default_backoff_is_not_exponential :
    ∃ out, (NewClient "key").toClient.sendRequest "GET" "api/v1/profile/overview"
        ⟨[("username", "u")]⟩ (fun _ => .error "unused")
        (fun _ => .doFails "connection refused") = some out ∧
      sleeps out.trace = [1 * second, 2 * second, 3 * second] ∧
      ¬ ∃ r : ℚ, 1 < r ∧ ((2 * second : Int) : ℚ) = r * ((1 * second : Int) : ℚ) ∧
        ((3 * second : Int) : ℚ) = r * ((2 * second : Int) : ℚ) := by
  refine ⟨_, rfl, ?_, ?_⟩
  · simp [NewClient, NewClientWithConfig, DefaultConfig, second, Client.attemptLoop, sleeps,
      Client.backoff, wrap64]
  · rintro ⟨r, _, h1, h2⟩
    simp only [second] at h1 h2
    push_cast at h1 h2
    linarith

/-! ## Claim C13: the header set of every attempt -/

/-- Every dispatch of the retry loop carries the request the loop was given. -/
theorem attemptLoop_dispatches_req (c : Client) (req : Request) (unmarshal : Unmarshal)
    (env : Nat → Attempt) (fuel : Nat) :
    ∀ (attempt : Int) (lastErr : Option GoError) (trace : List Event) (out : Outcome),
      (∀ r, Event.dispatch r ∈ trace → r = req) →
      c.attemptLoop req unmarshal env fuel attempt lastErr trace = some out →
      ∀ r, Event.dispatch r ∈ out.trace → r = req := by
  induction fuel with
  | zero => intro attempt lastErr trace out _ h; simp [Client.attemptLoop] at h
  | succ fuel ih =>
    intro attempt lastErr trace out htr h
    have hone : ∀ r, Event.dispatch r ∈ trace ++ [Event.dispatch req] → r = req := by
      intro r hr
      rcases List.mem_append.mp hr with hr | hr
      · exact htr r hr
      · simpa using hr
    have htwo : ∀ (d : Int) r,
        Event.dispatch r ∈ trace ++ [Event.dispatch req, Event.sleep d] → r = req := by
      intro d r hr
      rcases List.mem_append.mp hr with hr | hr
      · exact htr r hr
      · simpa using hr
    simp only [Client.attemptLoop] at h
    split at h
    · cases hE : env attempt.toNat with
      | ctxDone err =>
        simp only [hE, Option.some.injEq] at h
        subst h
        exact htr
      | newRequestFails err =>
        simp only [hE, Option.some.injEq] at h
        subst h
        exact htr
      | doFails err =>
        simp only [hE] at h
        split at h
        · exact ih _ _ _ _ (htwo _) h
        · simp only [Option.some.injEq] at h
          subst h
          exact hone
      | readFails statusCode err =>
        simp only [hE] at h
        split at h
        · exact ih _ _ _ _ (htwo _) h
        · simp only [Option.some.injEq] at h
          subst h
          exact hone
      | response statusCode body =>
        simp only [hE] at h
        split at h
        · split at h
          · exact ih _ _ _ _ (htwo _) h
          · simp only [Option.some.injEq] at h
            subst h
            exact hone
        · cases hu : unmarshal body with
          | error e =>
            simp only [hu, Option.some.injEq] at h
            subst h
            exact hone
          | ok res =>
            simp only [hu, Option.some.injEq] at h
            subst h
            exact hone
    · simp only [Option.some.injEq] at h
      subst h
      exact htr

/-- Every dispatch of `sendRequest` carries the request built from its arguments. -/
theorem sendRequest_dispatches_buildRequest (c : Client) (method endpoint : String)
    (params : Params) (unmarshal : Unmarshal) (env : Nat → Attempt) (out : Outcome)
    (h : c.sendRequest method endpoint params unmarshal env = some out) :
    ∀ r, Event.dispatch r ∈ out.trace → r = c.buildRequest method endpoint params :=
  attemptLoop_dispatches_req c _ unmarshal env _ 0 none [] out (by simp) h

theorem canonical_apikey : canonicalMIMEHeaderKey "X-linkdapi-apikey" = "X-Linkdapi-Apikey" := by
  decide

theorem canonical_accept : canonicalMIMEHeaderKey "Accept" = "Accept" := by decide

theorem canonical_contentType : canonicalMIMEHeaderKey "Content-Type" = "Content-Type" := by
  decide

theorem canonical_userAgent : canonicalMIMEHeaderKey "User-Agent" = "User-Agent" := by decide

/-- The header of the request of every attempt: the four default headers under their
canonical keys. -/
theorem buildRequest_header (c : Client) (method endpoint : String) (params : Params) :
    (c.buildRequest method endpoint params).header =
      ⟨[("X-Linkdapi-Apikey", c.apiKey), ("Accept", "application/json"),
        ("Content-Type", "application/json"), ("User-Agent", "LinkdAPI-Go-Client/1.0")]⟩ := by
  simp [Client.buildRequest, Client.newRequest, Client.getHeaders, canonical_apikey,
    canonical_accept, canonical_contentType, canonical_userAgent, Params.set,
    Params.setEntries, Params.empty]

/-- CLAIM C13. For every client and every API key it was constructed with: the constructor
stores the key unchanged; `getHeaders` has exactly four entries, `X-linkdapi-apikey` with
the API key verbatim, `Accept` and `Content-Type` with `application/json` and `User-Agent`
with `LinkdAPI-Go-Client/1.0`; `sendRequest` returns, and every request it dispatches
carries exactly these four headers (under their canonical names), among them the
authentication header exactly once, with the API key as its value. -/
theorem auth_header_on_every_dispatch (c : Client) (method endpoint : String)
    (params : Params) (unmarshal : Unmarshal) (env : Nat → Attempt) :
    (∀ (apiKey : String) (config : Option Config),
      (NewClientWithConfig apiKey config).apiKey = apiKey) ∧
    c.getHeaders.entries =
      [("X-linkdapi-apikey", c.apiKey), ("Accept", "application/json"),
       ("Content-Type", "application/json"), ("User-Agent", "LinkdAPI-Go-Client/1.0")] ∧
    c.getHeaders.len = 4 ∧
    c.getHeaders.get? "X-linkdapi-apikey" = some c.apiKey ∧
    headerCount c.getHeaders "X-linkdapi-apikey" = 1 ∧
    (∃ out, c.sendRequest method endpoint params unmarshal env = some out ∧
      ∀ r, Event.dispatch r ∈ out.trace →
        r.header.entries =
          [(canonicalMIMEHeaderKey "X-linkdapi-apikey", c.apiKey),
           ("Accept", "application/json"), ("Content-Type", "application/json"),
           ("User-Agent", "LinkdAPI-Go-Client/1.0")] ∧
        r.header.len = 4 ∧
        r.header.get? (canonicalMIMEHeaderKey "X-linkdapi-apikey") = some c.apiKey ∧
        headerCount r.header "X-linkdapi-apikey" = 1) := by
  refine ⟨fun apiKey config => rfl, rfl, rfl, ?_, ?_, ?_⟩
  · simp [Client.getHeaders, Params.get?, Params.getEntries]
  · rfl
  · obtain ⟨out, h⟩ := sendRequest_returns c method endpoint params unmarshal env
    refine ⟨out, h, fun r hr => ?_⟩
    have hreq := sendRequest_dispatches_buildRequest c method endpoint params unmarshal env
      out h r hr
    rw [hreq, buildRequest_header, canonical_apikey]
    refine ⟨rfl, rfl, ?_, ?_⟩
    · simp [Params.get?, Params.getEntries]
    · rfl

/-- Witness of `auth_header_on_every_dispatch`: an API key with surrounding blanks, one
failed and one successful attempt; both dispatches carry the key unchanged. -/
theorem auth_header_on_every_dispatch_witness :
    ∃ out, (Client.mk " my key " "https://linkdapi.com" 3 1000000000 30000000000).sendRequest
        "GET" "api/v1/profile/overview" ⟨[("username", "u")]⟩ (fun _ => .ok (some []))
        (fun k => if k = 0 then .doFails "connection refused" else .response 200 "ok") =
          some out ∧
      ∀ r, Event.dispatch r ∈ out.trace →
        r.header.get? (canonicalMIMEHeaderKey "X-linkdapi-apikey") = some " my key " ∧
        headerCount r.header "X-linkdapi-apikey" = 1 := by
  obtain ⟨out, h, hall⟩ :=
    (auth_header_on_every_dispatch
      (Client.mk " my key " "https://linkdapi.com" 3 1000000000 30000000000)
      "GET" "api/v1/profile/overview" ⟨[("username", "u")]⟩ (fun _ => .ok (some []))
      (fun k => if k = 0 then .doFails "connection refused" else .response 200 "ok")
      ).2.2.2.2.2
  exact ⟨out, h, fun r hr => ⟨(hall r hr).2.2.1, (hall r hr).2.2.2⟩⟩

/-! ## Claim C12: the request URL -/

theorem dropWhile_slash_spec (l : List Char) :
    ∃ n : Nat, l = List.replicate n '/' ++ l.dropWhile (fun ch => ch = '/') ∧
      (l.dropWhile (fun ch => ch = '/')).head? ≠ some '/' := by
  induction l with
  | nil => exact ⟨0, by simp⟩
  | cons ch rest ih =>
    by_cases h : ch = '/'
    · obtain ⟨n, hn, hhead⟩ := ih
      refine ⟨n + 1, ?_, ?_⟩
      · subst h
        simp only [List.dropWhile_cons, decide_True, if_true, List.replicate_succ,
          List.cons_append, List.cons.injEq, true_and]
        exact hn
      · simpa [List.dropWhile_cons, h] using hhead
    · exact ⟨0, by simp [List.dropWhile_cons, h], by simp [List.dropWhile_cons, h]⟩

/-- Source `strings.TrimLeft(s, "/")` removes exactly the leading `/`. -/
theorem trimLeftSlash_spec (s : String) :
    ∃ n : Nat, s.data = List.replicate n '/' ++ (trimLeftSlash s).data ∧
      (trimLeftSlash s).data.head? ≠ some '/' :=
  dropWhile_slash_spec s.data

/-- Source `strings.TrimRight(s, "/")` removes exactly the trailing `/`. -/
theorem trimRightSlash_spec (s : String) :
    ∃ n : Nat, s.data = (trimRightSlash s).data ++ List.replicate n '/' ∧
      (trimRightSlash s).data.getLast? ≠ some '/' := by
  obtain ⟨n, hn, hhead⟩ := dropWhile_slash_spec s.data.reverse
  refine ⟨n, ?_, ?_⟩
  · have := congrArg List.reverse hn
    simpa [trimRightSlash] using this
  · simpa [trimRightSlash] using hhead

theorem trimLeftSlash_of_head (s : String) (h : s.data.head? ≠ some '/') :
    trimLeftSlash s = s := by
  apply String.ext
  cases hs : s.data with
  | nil => simp [trimLeftSlash, hs]
  | cons ch rest =>
    have hch : ch ≠ '/' := by
      intro hc
      apply h
      simp [hs, hc]
    simp [trimLeftSlash, hs, List.dropWhile_cons, hch]

theorem trimRightSlash_of_last (s : String) (h : s.data.getLast? ≠ some '/') :
    trimRightSlash s = s := by
  apply String.ext
  have hrev : s.data.reverse.head? ≠ some '/' := by simpa using h
  have := congrArg String.data (trimLeftSlash_of_head ⟨s.data.reverse⟩ hrev)
  simp only [trimLeftSlash] at this
  simp [trimRightSlash, this]

theorem trimSlashes_of_head (s : String) (h : s.data.head? ≠ some '/') :
    trimSlashes s = trimRightSlash s := by
  apply trimLeftSlash_of_head
  obtain ⟨n, hn, _⟩ := trimRightSlash_spec s
  cases ht : (trimRightSlash s).data with
  | nil => simp
  | cons ch rest =>
    rw [ht] at hn
    rw [hn] at h
    simpa using h

theorem trimSlashes_of_last (s : String) (h : s.data.getLast? ≠ some '/') :
    trimSlashes s = trimLeftSlash s := by
  unfold trimSlashes
  rw [trimRightSlash_of_last s h]

/-- CLAIM C12 (counterexample). With the base URL `/proxy/linkdapi/` the request URL keeps
the leading `/` of the base URL, and for the endpoint path `/api/v1/profile/overview/` it
keeps the trailing `/` of the path; the URL the claim describes has neither. -/
theorem requestURL_keeps_outer_separators :
    (NewClientWithConfig "key"
        (some ⟨"/proxy/linkdapi/", 30 * second, 3, 1 * second, none⟩)).toClient.requestURL
      "api/v1/profile/overview" ⟨[]⟩ = "/proxy/linkdapi/api/v1/profile/overview" ∧
    specRequestURL "/proxy/linkdapi/" "api/v1/profile/overview" ⟨[]⟩ =
      "proxy/linkdapi/api/v1/profile/overview" ∧
    (NewClient "key").toClient.requestURL "/api/v1/profile/overview/" ⟨[]⟩ =
      "https://linkdapi.com/api/v1/profile/overview/" ∧
    specRequestURL "https://linkdapi.com" "/api/v1/profile/overview/" ⟨[]⟩ =
      "https://linkdapi.com/api/v1/profile/overview" := by
  refine ⟨?_, ?_, ?_, ?_⟩ <;> decide

/-- CLAIM C12 (amended). For every configured base URL, endpoint path and parameter set,
the request URL is the base URL with its trailing `/` removed, one `/`, and the endpoint
path with its leading `/` removed, followed by `?` and the URL-encoded parameters exactly
when the parameter set is not empty; every dispatch of `sendRequest` uses this URL. When
the base URL has no leading `/` and the path no trailing `/`, this is the URL of the spec,
with both trimmed on both sides. -/
theorem requestURL_spec (apiKey : String) (cfg : Config) (method endpoint : String)
    (params : Params) (unmarshal : Unmarshal) (env : Nat → Attempt) :
    (params.len = 0 →
      (NewClientWithConfig apiKey (some cfg)).toClient.requestURL endpoint params =
        trimRightSlash cfg.BaseURL ++ "/" ++ trimLeftSlash endpoint) ∧
    (params.len > 0 →
      (NewClientWithConfig apiKey (some cfg)).toClient.requestURL endpoint params =
        trimRightSlash cfg.BaseURL ++ "/" ++ trimLeftSlash endpoint ++ "?" ++
          valuesEncode params) ∧
    (∃ n : Nat, cfg.BaseURL.data = (trimRightSlash cfg.BaseURL).data ++ List.replicate n '/' ∧
      (trimRightSlash cfg.BaseURL).data.getLast? ≠ some '/') ∧
    (∃ n : Nat, endpoint.data = List.replicate n '/' ++ (trimLeftSlash endpoint).data ∧
      (trimLeftSlash endpoint).data.head? ≠ some '/') ∧
    (∃ out, (NewClientWithConfig apiKey (some cfg)).toClient.sendRequest method endpoint
        params unmarshal env = some out ∧
      ∀ r, Event.dispatch r ∈ out.trace →
        r.url = (NewClientWithConfig apiKey (some cfg)).toClient.requestURL endpoint params ∧
        r.method = method) ∧
    (cfg.BaseURL.data.head? ≠ some '/' → endpoint.data.getLast? ≠ some '/' →
      (NewClientWithConfig apiKey (some cfg)).toClient.requestURL endpoint params =
        specRequestURL cfg.BaseURL endpoint params) := by
  refine ⟨?_, ?_, trimRightSlash_spec cfg.BaseURL, trimLeftSlash_spec endpoint, ?_, ?_⟩
  · intro h
    simp [Client.requestURL, NewClientWithConfig, h]
  · intro h
    simp [Client.requestURL, NewClientWithConfig, h]
  · obtain ⟨out, h⟩ := sendRequest_returns (NewClientWithConfig apiKey (some cfg)).toClient
      method endpoint params unmarshal env
    refine ⟨out, h, fun r hr => ?_⟩
    rw [sendRequest_dispatches_buildRequest _ method endpoint params unmarshal env out h r hr]
    exact ⟨rfl, rfl⟩
  · intro hb he
    simp only [Client.requestURL, specRequestURL, NewClientWithConfig,
      trimSlashes_of_head cfg.BaseURL hb, trimSlashes_of_last endpoint he]

/-- Witness of `requestURL_spec`: the default base URL with a trailing `/` and a path with
a leading `/`, with and without parameters. -/
theorem requestURL_spec_witness :
    (NewClientWithConfig "key"
        (some ⟨"https://linkdapi.com/", 30 * second, 3, 1 * second, none⟩)).toClient.requestURL
      "/api/v1/posts/comments" ⟨[]⟩ = "https://linkdapi.com/api/v1/posts/comments" ∧
    (NewClientWithConfig "key"
        (some ⟨"https://linkdapi.com/", 30 * second, 3, 1 * second, none⟩)).toClient.requestURL
      "/api/v1/posts/comments" ⟨[("urn", "a b"), ("start", "0")]⟩ =
        "https://linkdapi.com/api/v1/posts/comments?start=0&urn=a+b" :=
  ⟨((requestURL_spec "key" ⟨"https://linkdapi.com/", 30 * second, 3, 1 * second, none⟩ "GET"
      "/api/v1/posts/comments" ⟨[]⟩ (fun _ => .error "unused")
      (fun _ => .doFails "connection refused")).1 rfl).trans (by decide),
   ((requestURL_spec "key" ⟨"https://linkdapi.com/", 30 * second, 3, 1 * second, none⟩ "GET"
      "/api/v1/posts/comments" ⟨[("urn", "a b"), ("start", "0")]⟩ (fun _ => .error "unused")
      (fun _ => .doFails "connection refused")).2.1 (by decide)).trans (by decide)⟩

/-! ## Claim C11: round trip through the parameter set -/

theorem digitChar_spec :
    ∀ d : Nat, d < 10 → (Nat.digitChar d).isDigit = true ∧ (Nat.digitChar d).toNat - 48 = d := by
  decide

theorem toDigitsCore_append (fuel : Nat) :
    ∀ (n : Nat) (ds : List Char),
      Nat.toDigitsCore 10 fuel n ds = Nat.toDigitsCore 10 fuel n [] ++ ds := by
  induction fuel with
  | zero => intro n ds; simp [Nat.toDigitsCore]
  | succ fuel ih =>
    intro n ds
    simp only [Nat.toDigitsCore]
    split
    · simp
    · rw [ih (n / 10) (Nat.digitChar (n % 10) :: ds), ih (n / 10) [Nat.digitChar (n % 10)]]
      simp

theorem decimalValue_append (xs ys : List Char) :
    ∀ acc : Nat, decimalValue (xs ++ ys) acc = (decimalValue xs acc).bind (decimalValue ys) := by
  induction xs with
  | nil => intro acc; simp [decimalValue]
  | cons ch rest ih =>
    intro acc
    by_cases h : ch.isDigit = true
    · simp [decimalValue, h, ih]
    · simp [decimalValue, h]

theorem decimalValue_digit (d acc : Nat) (hd : d < 10) :
    decimalValue [Nat.digitChar d] acc = some (acc * 10 + d) := by
  obtain ⟨h1, h2⟩ := digitChar_spec d hd
  simp [decimalValue, h1, h2]

theorem decimalValue_toDigitsCore (fuel : Nat) :
    ∀ n : Nat, n < fuel → decimalValue (Nat.toDigitsCore 10 fuel n []) 0 = some n := by
  induction fuel with
  | zero => intro n h; omega
  | succ fuel ih =>
    intro n hn
    simp only [Nat.toDigitsCore]
    split
    · rename_i h0
      rw [decimalValue_digit _ _ (Nat.mod_lt n (by decide))]
      congr 1
      omega
    · rename_i h0
      rw [toDigitsCore_append, decimalValue_append, ih (n / 10) (by omega)]
      show decimalValue [Nat.digitChar (n % 10)] (n / 10) = some n
      rw [decimalValue_digit _ _ (Nat.mod_lt n (by decide))]
      congr 1
      omega

theorem toDigits_ne_nil (n : Nat) : Nat.toDigits 10 n ≠ [] := by
  unfold Nat.toDigits
  simp only [Nat.toDigitsCore]
  split
  · simp
  · rw [toDigitsCore_append]
    simp

theorem parseNat_toDigits (n : Nat) : parseNat (Nat.toDigits 10 n) = some n := by
  unfold parseNat
  rw [if_neg (toDigits_ne_nil n)]
  exact decimalValue_toDigitsCore (n + 1) n (by omega)

theorem parseInt_of_parseNat (s : String) (n : Nat) (h : parseNat s.data = some n) :
    parseInt s = some (n : Int) := by
  unfold parseInt
  split
  · rename_i rest hs
    rw [hs] at h
    simp [parseNat, decimalValue] at h
  · simp [h]

/-- Parsing the `%d` text of an integer gives the integer back. -/
theorem parseInt_toString (value : Int) : parseInt (toString value) = some value := by
  cases value with
  | ofNat m =>
    exact parseInt_of_parseNat _ m (parseNat_toDigits m)
  | negSucc m =>
    have hdata : (toString (Int.negSucc m)).data = '-' :: Nat.toDigits 10 (m + 1) := rfl
    unfold parseInt
    rw [hdata]
    simp only [parseNat_toDigits, Option.map_some']
    rfl

theorem commaJoined_data (values : List String) :
    (commaJoined values).data = [','].intercalate (values.map String.data) := by
  induction values with
  | nil => rfl
  | cons a rest ih =>
    cases rest with
    | nil => simp [commaJoined, List.intercalate]
    | cons b rest =>
      have hcomma : (",":String).data = [','] := rfl
      simp only [commaJoined, String.data_append, ih, hcomma]
      simp [List.intercalate]

/-- Splitting the comma-joined value of a non-empty list whose entries hold no comma gives
the list back. -/
theorem splitComma_stringsJoin (values : List String) (hne : values ≠ [])
    (hcomma : ∀ v ∈ values, ',' ∉ v.data) :
    splitComma (stringsJoin values ",") = values := by
  unfold splitComma
  rw [stringsJoin_eq_commaJoined, commaJoined_data,
    List.splitOn_intercalate _ ',' (by
      intro l hl
      obtain ⟨v, hv, rfl⟩ := List.mem_map.mp hl
      exact hcomma v hv) (by simpa using hne)]
  rw [List.map_map]
  conv_rhs => rw [← List.map_id values]
  apply List.map_congr_left
  intro v _
  rfl

/-- CLAIM C11 (counterexample). A string list with the single entry `it,sales,eng`, the
value the documentation of `JobSearchV2Params.Functions` gives as an example, is written
by `sliceParam` as `it,sales,eng`; splitting that value on commas gives three entries,
not the original list. -/
theorem slice_round_trip_fails_on_comma :
    (sliceParam Params.empty "functions" ["it,sales,eng"]).get? "functions" =
      some "it,sales,eng" ∧
    decodeSlice (sliceParam Params.empty "functions" ["it,sales,eng"]) "functions" =
      ["it", "sales", "eng"] ∧
    decodeSlice (sliceParam Params.empty "functions" ["it,sales,eng"]) "functions" ≠
      ["it,sales,eng"] := by
  refine ⟨?_, ?_, ?_⟩ <;> decide

/-- CLAIM C11 (amended). For a key that the parameter set does not hold yet: decoding the
parameter set written by `stringParam` gives back every string, by `intParam` every
integer, by `boolParam` every optional boolean, and by `sliceParam` every string list
whose entries contain no comma; for such a list, splitting the written value on commas
gives back the list. -/
theorem param_round_trip (params : Params) (key : String) (hfresh : params.get? key = none) :
    (∀ value : String, decodeString (stringParam params key value) key = value) ∧
    (∀ value : Int, decodeInt (intParam params key value) key = some value) ∧
    (∀ value : Option Bool, decodeBool (boolParam params key value) key = value) ∧
    (∀ values : List String, (∀ v ∈ values, ',' ∉ v.data) →
      decodeSlice (sliceParam params key values) key = values) ∧
    (∀ values : List String, values ≠ [] → (∀ v ∈ values, ',' ∉ v.data) →
      ∃ written, (sliceParam params key values).get? key = some written ∧
        splitComma written = values) := by
  refine ⟨?_, ?_, ?_, ?_, ?_⟩
  · intro value
    by_cases h : value = ""
    · simp [decodeString, stringParam, h, hfresh]
    · simp [decodeString, stringParam, h]
  · intro value
    simp [decodeInt, intParam, parseInt_toString]
  · intro value
    cases value with
    | none => simp [decodeBool, boolParam, hfresh]
    | some b => cases b <;> simp [decodeBool, boolParam]
  · intro values hcomma
    cases values with
    | nil => simp [decodeSlice, sliceParam, hfresh]
    | cons a rest =>
      simp only [decodeSlice, sliceParam, List.length_cons, Nat.succ_pos, gt_iff_lt,
        Nat.zero_lt_succ, if_true, Params.get?_set_self]
      exact splitComma_stringsJoin (a :: rest) (by simp) hcomma
  · intro values hne hcomma
    refine ⟨stringsJoin values ",", ?_, splitComma_stringsJoin values hne hcomma⟩
    have hlen : values.length > 0 := List.length_pos.mpr hne
    simp [sliceParam, hlen]

/-- Witness of `param_round_trip` on the empty parameter set. -/
theorem param_round_trip_witness :
    decodeString (stringParam Params.empty "keyword" "go developer") "keyword" =
      "go developer" ∧
    decodeInt (intParam Params.empty "start" (-25)) "start" = some (-25) ∧
    decodeBool (boolParam Params.empty "easyApply" (some false)) "easyApply" = some false ∧
    decodeBool (boolParam Params.empty "easyApply" none) "easyApply" = none ∧
    decodeSlice (sliceParam Params.empty "jobTypes" ["full_time", "contract"]) "jobTypes" =
      ["full_time", "contract"] :=
  ⟨(param_round_trip Params.empty "keyword" rfl).1 "go developer",
   (param_round_trip Params.empty "start" rfl).2.1 (-25),
   (param_round_trip Params.empty "easyApply" rfl).2.2.1 (some false),
   (param_round_trip Params.empty "easyApply" rfl).2.2.1 none,
   (param_round_trip Params.empty "jobTypes" rfl).2.2.2.1 ["full_time", "contract"]
     (by decide)⟩

end Linkdapi
